import Mathlib

/-!
Verification development for the Haas+Sohn pellet-stove Homey integration.

Shallow embedding of the device-state synchronization engine of
`src/drivers/pellet_stove/device.ts` and the session protocol of
`src/lib/haassohn-api.ts`.

Modelling conventions:
* JavaScript numbers are modelled as exact rationals (`ℚ`) extended with
  `NaN` and signed infinities (`JSNum`).  Floating-point rounding and the
  negative-zero value are not modelled; none of the verified properties
  depend on them.
* JavaScript objects used as records (the capability store, flattened
  status documents, command payloads) are modelled as association lists
  in insertion order; re-assigning an existing key keeps its position,
  as in JavaScript.
* Number-to-string rendering (`String(n)`, `JSON.stringify`) is modelled
  by a deterministic decimal-or-fraction rendering; the verified
  properties depend only on its determinism, never on the exact digits.
* Asynchronous effects (capability writes, flow triggers, notifications,
  warnings, store and settings writes) are modelled as an explicit event
  list emitted by each operation, in program order.
-/

namespace HS

/-- A JavaScript number: NaN, ±Infinity, or a finite value (exact rational). -/
inductive JSNum where
  | nan
  | inf (pos : Bool)
  | fin (q : ℚ)
deriving Repr, DecidableEq

/-- Number.isFinite. -/
def JSNum.isFinite : JSNum → Bool
  | .fin _ => true
  | _ => false

/-- A scalar JavaScript value as it appears in flattened status documents,
capability stores and command payloads. -/
inductive JSVal where
  | null
  | undef
  | bool (b : Bool)
  | num (n : JSNum)
  | str (s : String)
deriving Repr, DecidableEq

/-- A status-document value: the JSON tree returned by the stove
(`HaasSohnStatus`). -/
inductive SVal where
  | null
  | bool (b : Bool)
  | num (q : ℚ)
  | str (s : String)
  | arr (items : List SVal)
  | obj (fields : List (String × SVal))

/-- Math.round: round half toward +∞, i.e. `⌊q + 1/2⌋` (see
`jsRound_eq_floor`), computed by integer division so that it evaluates
in the kernel. -/
def jsRound (q : ℚ) : ℤ := (2 * q.num + (q.den : ℤ)) / ((2 * q.den : ℕ) : ℤ)

/-- JavaScript whitespace stripped by Number(string) conversion
(ASCII subset; exotic Unicode spaces are not modelled). -/
def jsWhitespace (c : Char) : Bool :=
  c == ' ' || c == '\t' || c == '\n' || c == '\r' || c == '\x0b' || c == '\x0c'

/-- Strip leading and trailing JavaScript whitespace from a character list. -/
def jsTrimChars (cs : List Char) : List Char :=
  ((cs.dropWhile jsWhitespace).reverse.dropWhile jsWhitespace).reverse

/-- Take a maximal run of decimal digits from the front of a list. -/
def takeDigits : List Char → List ℕ × List Char
  | [] => ([], [])
  | c :: cs =>
    if c.isDigit then
      let (ds, rest) := takeDigits cs
      ((c.toNat - 48) :: ds, rest)
    else ([], c :: cs)

/-- Value of a digit string, most significant first. -/
def natOfDigits (ds : List ℕ) : ℕ := ds.foldl (fun acc d => 10 * acc + d) 0

/-- Value of a hexadecimal digit, if any. -/
def hexVal (c : Char) : Option ℕ :=
  if c.isDigit then some (c.toNat - 48)
  else if 'a' ≤ c ∧ c ≤ 'f' then some (c.toNat - 97 + 10)
  else if 'A' ≤ c ∧ c ≤ 'F' then some (c.toNat - 65 + 10)
  else none

/-- Value of an octal digit, if any. -/
def octVal (c : Char) : Option ℕ :=
  if '0' ≤ c ∧ c ≤ '7' then some (c.toNat - 48) else none

/-- Value of a binary digit, if any. -/
def binVal (c : Char) : Option ℕ :=
  if c = '0' ∨ c = '1' then some (c.toNat - 48) else none

/-- Parse a non-empty all-digit string in the given radix. -/
def parseRadix (radix : ℕ) (valOf : Char → Option ℕ) (cs : List Char) : Option ℚ :=
  match cs with
  | [] => none
  | _ =>
    let step : Option ℕ → Char → Option ℕ := fun acc c =>
      match acc, valOf c with
      | some a, some v => some (radix * a + v)
      | _, _ => none
    (cs.foldl step (some 0)).map (fun n => (n : ℚ))

/-- Parse an unsigned decimal literal (digits, optional fraction, optional
exponent), as accepted by JavaScript StringToNumber. -/
def parseDecimal (cs : List Char) : Option ℚ :=
  let (ip, r1) := takeDigits cs
  let fr : List ℕ × List Char :=
    match r1 with
    | '.' :: rest => takeDigits rest
    | _ => ([], r1)
  let fp := fr.1
  let r2 := fr.2
  if ip.isEmpty ∧ fp.isEmpty then none
  else
    let mantissa : ℚ := (natOfDigits ip : ℚ) + (natOfDigits fp : ℚ) / (10 : ℚ) ^ fp.length
    match r2 with
    | [] => some mantissa
    | e :: rest =>
      if e = 'e' ∨ e = 'E' then
        let sr : ℤ × List Char :=
          match rest with
          | '+' :: t => (1, t)
          | '-' :: t => (-1, t)
          | t => (1, t)
        let (ed, rest2) := takeDigits sr.2
        if ed.isEmpty ∨ ¬ rest2.isEmpty then none
        else some (mantissa * (10 : ℚ) ^ (sr.1 * (natOfDigits ed : ℤ)))
      else none

/-- Parse a signed decimal literal or a signed Infinity. -/
def signedDecOrInf (cs : List Char) : JSNum :=
  let sb : Bool × List Char :=
    match cs with
    | '+' :: t => (false, t)
    | '-' :: t => (true, t)
    | t => (false, t)
  let neg := sb.1
  let body := sb.2
  if body = "Infinity".toList then .inf (!neg)
  else
    match parseDecimal body with
    | some q => .fin (if neg then -q else q)
    | none => .nan

/-- JavaScript `Number(string)` conversion (StringToNumber): trims
whitespace, maps the empty remainder to 0, accepts decimal literals with
optional sign/fraction/exponent, `Infinity`, and unsigned `0x`/`0o`/`0b`
radix literals; everything else is NaN. -/
def jsStringToNumber (s : String) : JSNum :=
  let cs := jsTrimChars s.toList
  match cs with
  | [] => .fin 0
  | '0' :: c :: rest =>
    if c = 'x' ∨ c = 'X' then
      match parseRadix 16 hexVal rest with
      | some q => .fin q
      | none => .nan
    else if c = 'o' ∨ c = 'O' then
      match parseRadix 8 octVal rest with
      | some q => .fin q
      | none => .nan
    else if c = 'b' ∨ c = 'B' then
      match parseRadix 2 binVal rest with
      | some q => .fin q
      | none => .nan
    else signedDecOrInf cs
  | _ => signedDecOrInf cs

/-- Deterministic rendering of a finite number (decimal for integers,
`num/den` otherwise).  Stands in for JavaScript number formatting; the
verified properties depend only on determinism of this rendering. -/
def qToString (q : ℚ) : String :=
  if q.den = 1 then toString q.num else toString q.num ++ "/" ++ toString q.den

/-- Rendering of a JavaScript number as by `String(n)`. -/
def jsNumToString : JSNum → String
  | .nan => "NaN"
  | .inf true => "Infinity"
  | .inf false => "-Infinity"
  | .fin q => qToString q

/-- Rendering of a scalar value as by `String(v)`. -/
def jsValToString : JSVal → String
  | .null => "null"
  | .undef => "undefined"
  | .bool true => "true"
  | .bool false => "false"
  | .num n => jsNumToString n
  | .str s => s

/-- Minimal JSON string escaping (backslash and double quote). -/
def jsonEscape (s : String) : String :=
  s.foldl (fun acc c =>
    if c = '\\' then acc ++ "\\\\"
    else if c = '"' then acc ++ "\\\""
    else acc.push c) ""

mutual

/-- JSON.stringify of a status-document value. -/
def stringifySVal : SVal → String
  | .null => "null"
  | .bool true => "true"
  | .bool false => "false"
  | .num q => qToString q
  | .str s => "\"" ++ jsonEscape s ++ "\""
  | .arr items => "[" ++ stringifyItems items ++ "]"
  | .obj fields => "\x7b" ++ stringifyFields fields ++ "\x7d"

/-- JSON.stringify of array items, comma separated. -/
def stringifyItems : List SVal → String
  | [] => ""
  | [x] => stringifySVal x
  | x :: xs => stringifySVal x ++ "," ++ stringifyItems xs

/-- JSON.stringify of object fields, comma separated. -/
def stringifyFields : List (String × SVal) → String
  | [] => ""
  | [(k, v)] => "\"" ++ jsonEscape k ++ "\":" ++ stringifySVal v
  | (k, v) :: xs => "\"" ++ jsonEscape k ++ "\":" ++ stringifySVal v ++ "," ++ stringifyFields xs

end

/-- Insert or overwrite a key in an association list, keeping the original
position of an existing key (JavaScript object assignment semantics). -/
def objInsert (l : List (String × JSVal)) (k : String) (v : JSVal) : List (String × JSVal) :=
  match l with
  | [] => [(k, v)]
  | (k', v') :: rest =>
    if k' = k then (k', v) :: rest else (k', v') :: objInsert rest k v

/-- Read a key from a flattened status document; absent keys read as
`undefined`, as in JavaScript. -/
def flatGet (flat : List (String × JSVal)) (k : String) : JSVal :=
  (flat.lookup k).getD (.undef)

/-- The `OBJECT_AS_STRING_KEYS` allow-list. -/
def OBJECT_AS_STRING_KEYS : List String := ["meta.wlan_features"]

/-- Source `flattenStatus`: recursively flattens a status document into
dotted keys; arrays and allow-listed composite keys are serialized to
their JSON string form. -/
def flattenEntries : List (String × SVal) → String → List (String × JSVal) → List (String × JSVal)
  | [], _, out => out
  | (k, v) :: rest, path, out =>
    let fullKey := if path = "" then k else path ++ "." ++ k
    let out' :=
      match v with
      | .arr items => objInsert out fullKey (.str (stringifySVal (.arr items)))
      | .obj fields =>
        if fullKey ∈ OBJECT_AS_STRING_KEYS then
          objInsert out fullKey (.str (stringifySVal (.obj fields)))
        else flattenEntries fields fullKey out
      | .null => objInsert out fullKey .null
      | .bool b => objInsert out fullKey (.bool b)
      | .num q => objInsert out fullKey (.num (.fin q))
      | .str s => objInsert out fullKey (.str s)
    flattenEntries rest path out'

/-- Flatten a top-level status document (an object's field list). -/
def flattenStatus (doc : List (String × SVal)) : List (String × JSVal) :=
  flattenEntries doc "" []

/-- Source `coerceBoolean`. -/
def coerceBoolean : JSVal → Option Bool
  | .bool b => some b
  | .num (.fin q) => some (decide (q ≠ 0))
  | .num _ => some true
  | .str s =>
    let lowered := (String.mk (jsTrimChars s.toList)).toLower
    if lowered ∈ ["1", "true", "yes", "on"] then some true
    else if lowered ∈ ["0", "false", "no", "off"] then some false
    else none
  | _ => none

/-- Source `coerceNumber`: finite numbers pass through, strings go through
`Number(...)` and must come out finite, everything else is dropped. -/
def coerceNumber : JSVal → Option ℚ
  | .num (.fin q) => some q
  | .num _ => none
  | .str s =>
    match jsStringToNumber s with
    | .fin q => some q
    | _ => none
  | _ => none

/-- Declared capability type. -/
inductive CapabilityType where
  | boolean
  | number
  | string
deriving Repr, DecidableEq

/-- The `CAPABILITY_TYPES` table. -/
def CAPABILITY_TYPES (id : String) : Option CapabilityType :=
  if id ∈ ["onoff", "stove_eco_mode", "stove_weekprogram_active", "meta_eco_editable",
           "stove_error_state"] then some .boolean
  else if id ∈ ["target_temperature", "measure_temperature", "measure_stove_cleaning_in",
           "measure_stove_maintenance_in", "measure_stove_consumption", "measure_stove_pellets",
           "stove_pellets_actual", "stove_heating_curve", "stove_ignitions", "stove_on_time",
           "stove_zone"] then some .number
  else if id ∈ ["stove_mode", "stove_error_code"] then some .string
  else none

/-- Source `coerceValue`: coerce a flattened value for a capability of
declared type; a failed coercion drops the value. -/
def coerceValue (capabilityId : String) (value : JSVal) : Option JSVal :=
  match CAPABILITY_TYPES capabilityId with
  | none => none
  | some .boolean => (coerceBoolean value).map .bool
  | some .number => (coerceNumber value).map (fun q => .num (.fin q))
  | some .string =>
    match value with
    | .null => none
    | .undef => none
    | .str s => some (.str s)
    | .num n => some (.str (jsNumToString n))
    | .bool b => some (.str (jsValToString (.bool b)))

/-- The `STATE_TO_CAPABILITY` table, in source (insertion) order. -/
def STATE_TO_CAPABILITY : List (String × String) :=
  [("prg", "onoff"),
   ("sp_temp", "target_temperature"),
   ("is_temp", "measure_temperature"),
   ("mode", "stove_mode"),
   ("zone", "stove_zone"),
   ("cleaning_in", "measure_stove_cleaning_in"),
   ("maintenance_in", "measure_stove_maintenance_in"),
   ("consumption", "measure_stove_consumption"),
   ("pellets", "stove_pellets_actual"),
   ("eco_mode", "stove_eco_mode"),
   ("wprg", "stove_weekprogram_active"),
   ("ht_char", "stove_heating_curve"),
   ("ignitions", "stove_ignitions"),
   ("on_time", "stove_on_time"),
   ("meta.eco_editable", "meta_eco_editable")]

/-- Keys `errors.<code>.1` … `errors.<code>.<k>` of the `ERROR_CODE_MAP`. -/
def errKeys (code : String) (k : ℕ) : List String :=
  (List.range k).map (fun i => "errors." ++ code ++ "." ++ toString (i + 1))

/-- The `ERROR_CODE_MAP` lists of cause keys per fault number. -/
def ERROR_CODE_MAP (n : ℚ) : List String :=
  if n = 1 then errKeys "1" 3
  else if n = 2 then errKeys "2" 8
  else if n = 3 then errKeys "3" 3
  else if n = 5 then errKeys "5" 7
  else if n = 6 then errKeys "6" 4
  else if n = 7 then errKeys "7" 1
  else if n = 8 then errKeys "8" 1
  else if n = 9 then errKeys "9" 1
  else if n = 11 then errKeys "11" 1
  else if n = 12 then errKeys "12" 1
  else if n = 13 then errKeys "13" 1
  else if n = 14 then errKeys "14" 1
  else if n = 15 then errKeys "15" 2
  else if n = 18 then errKeys "18" 1
  else if n = 21 then errKeys "21" 7
  else if n = 22 then errKeys "22" 5
  else if n = 23 then errKeys "23" 1
  else if n = 24 then errKeys "24" 1
  else if n = 26 then errKeys "26" 8
  else if n = 27 then errKeys "27" 3
  else if n = 28 then errKeys "28" 2
  else if n = 33 then errKeys "33" 3
  else if n = 34 then errKeys "34" 1
  else if n = 40 then errKeys "40" 1
  else if n = 41 then errKeys "41" 1
  else if n = 43 then errKeys "43" 1
  else if n = 50 then errKeys "50" 1
  else if n = 60 then errKeys "60" 1
  else if n = 1000 then errKeys "1000" 1
  else []

/-- Localization lookup `this.homey.__`: modelled as the identity on keys
(a fixed, deterministic, non-empty rendering). -/
def localize (key : String) : String := key

/-- First run of 1–4 digits in a string, per the `/(\d{1,4})/` regex of
`parseErrorNumber`. -/
def firstDigitRun : List Char → Option ℕ
  | [] => none
  | c :: cs =>
    if c.isDigit then
      let (ds, _) := takeDigits (c :: cs)
      some (natOfDigits (ds.take 4))
    else firstDigitRun cs

/-- Source `parseErrorNumber`. -/
def parseErrorNumber (value : JSVal) : Option ℚ :=
  match coerceNumber value with
  | some q => some q
  | none =>
    match value with
    | .str s =>
      match firstDigitRun s.toList with
      | some n => some (n : ℚ)
      | none => none
    | _ => none

/-- Source `getErrorNumber`: first of `error.nr`, `error`, `err.nr`, `err`
that parses to a number. -/
def getErrorNumber (flat : List (String × JSVal)) : Option ℚ :=
  match parseErrorNumber (flatGet flat "error.nr") with
  | some n => some n
  | none =>
    match parseErrorNumber (flatGet flat "error") with
    | some n => some n
    | none =>
      match parseErrorNumber (flatGet flat "err.nr") with
      | some n => some n
      | none => parseErrorNumber (flatGet flat "err")

/-- String.padStart(3, '0'). -/
def padStart3 (s : String) : String :=
  if s.length ≥ 3 then s
  else String.mk (List.replicate (3 - s.length) '0') ++ s

/-- Source `formatErrorCode`. -/
def formatErrorCode (errorNumber : ℚ) : String :=
  if errorNumber ≥ 1000 then "F" ++ qToString errorNumber
  else "F" ++ padStart3 (qToString errorNumber)

/-- Source `formatErrorMessage`. -/
def formatErrorMessage (errorCode : String) (causes : List String) (unknownMessage : String) : String :=
  if causes.isEmpty then errorCode ++ ": " ++ unknownMessage
  else errorCode ++ ": " ++ String.intercalate " / " causes

/-- Source `roundTo`. -/
def roundTo (value : ℚ) (decimals : ℕ) : ℚ :=
  ((jsRound (value * (10 : ℚ) ^ decimals) : ℤ) : ℚ) / (10 : ℚ) ^ decimals

/-- Pellet auto-reset modes. -/
inductive PelletsAutoResetMode where
  | none
  | reset15
  | reset30
deriving Repr, DecidableEq

/-- Source `parsePelletsAutoResetMode`. -/
def parsePelletsAutoResetMode (value : JSVal) : PelletsAutoResetMode :=
  if value = .str "reset15" then .reset15
  else if value = .str "reset30" then .reset30
  else .none

/-- Source `getPelletsAutoResetValue`. -/
def getPelletsAutoResetValue : PelletsAutoResetMode → Option ℚ
  | .reset15 => some 15
  | .reset30 => some 30
  | .none => none

/-- Source `parsePelletsMaxKg` (DEFAULT_MAX_PELLETS_KG = 30,
MIN_PELLETS_KG = 0). -/
def parsePelletsMaxKg (value : JSVal) : ℚ :=
  match coerceNumber value with
  | none => 30
  | some q => max 0 q

/-- Source `clampPelletsValue`: non-finite input yields
DEFAULT_PELLETS_KG = 15; otherwise round to the nearest integer (half
up) and clamp to [MIN_PELLETS_KG, maxKg]. -/
def clampPelletsValue (maxKg : ℚ) : JSNum → ℚ
  | .fin q => min maxKg (max 0 ((jsRound q : ℤ) : ℚ))
  | _ => 15

/-- Source `normalizeMetaValue` (the composite branch does not occur on
flattened scalars). -/
def normalizeMetaValue : JSVal → Option String
  | .null => none
  | .undef => none
  | .str s =>
    let trimmed := String.mk (jsTrimChars s.toList)
    if trimmed.length > 0 then some trimmed else none
  | .num n => some (jsNumToString n)
  | .bool b => some (jsValToString (.bool b))

/-- The `??` nullish-coalescing operator. -/
def nullishCoalesce (v d : JSVal) : JSVal :=
  match v with
  | .null => d
  | .undef => d
  | _ => v

/-- Observable side effects of the device, in program order.  Store and
settings writes are external persistence; capability writes, flow
triggers, notifications and warnings are the user-visible effects. -/
inductive Event where
  | capWrite (capabilityId : String) (value : JSVal)
  | flowTrigger (card : String) (tokens : List (String × JSVal))
  | notify (excerpt : String)
  | warn (message : String)
  | unwarn
  | storeWrite (key : String) (value : ℚ)
  | settingsWrite (key : String) (value : JSVal)
  | capOptionsWrite (capabilityId : String) (maxValue : ℚ)
  | postCommand (payload : List (String × JSVal))
  | stopPollingEvent
  | pollRequested
deriving Repr, DecidableEq

/-- The mutable per-device state of `PelletStoveDevice`, together with the
external stores it reads and writes (capability store, persistent device
store, relevant settings keys).  `lastConsumptionKg`, `storeRemaining` and
`storeConsumption` carry exact rationals because every write the device
performs to them is a finite number. -/
structure DeviceState where
  ecoEditable : Bool
  lastErrorCode : Option String
  lastErrorMessage : Option String
  pelletsRemainingKg : Option ℚ
  lastConsumptionKg : Option ℚ
  pelletsAutoResetMode : PelletsAutoResetMode
  pelletsMaxKg : ℚ
  pelletsHoldAutoReset : Bool
  caps : List (String × JSVal)
  storeRemaining : Option ℚ
  storeConsumption : Option ℚ
  settingsPelletsKg : JSVal
  settingsMaxKg : JSVal
  settingsMetaHw : JSVal
  settingsMetaSw : JSVal
  settingsMetaTyp : JSVal
  apiConfigured : Bool
  lastCommandPayload : Option (List (String × JSVal))
deriving Repr, DecidableEq

/-- `this.hasCapability(id)`: a capability is present exactly when it has
an entry in the capability store. -/
def hasCapability (s : DeviceState) (capabilityId : String) : Bool :=
  (s.caps.lookup capabilityId).isSome

/-- `this.getCapabilityValue(id)` (null before any value is set). -/
def getCapabilityValue (s : DeviceState) (capabilityId : String) : JSVal :=
  (s.caps.lookup capabilityId).getD .null

/-- Source `triggerCapabilityFlow`: the flow-trigger events fired after a
successful capability write. -/
def triggerCapabilityFlow (s : DeviceState) (capabilityId : String) (value : JSVal) : List Event :=
  if capabilityId = "stove_weekprogram_active" then
    match coerceBoolean value with
    | some enabled => [.flowTrigger "stove_weekprogram_changed" [("enabled", .bool enabled)]]
    | none => []
  else if capabilityId = "stove_eco_mode" then
    match coerceBoolean value with
    | some mode => [.flowTrigger "stove_eco_mode_changed" [("mode", .bool mode)]]
    | none => []
  else if capabilityId = "stove_pellets_actual" ∨ capabilityId = "measure_stove_pellets" then
    if capabilityId = "measure_stove_pellets" ∧ hasCapability s "stove_pellets_actual" then []
    else
      match coerceNumber value with
      | some pelletsKg => [.flowTrigger "stove_pellets_changed" [("pellets_kg", .num (.fin pelletsKg))]]
      | none => []
  else if capabilityId = "measure_stove_cleaning_in" then
    match coerceNumber value with
    | some cleaningHours => [.flowTrigger "stove_cleaning_changed" [("cleaning_hours", .num (.fin cleaningHours))]]
    | none => []
  else if capabilityId = "measure_stove_maintenance_in" then
    match coerceNumber value with
    | some ashLimit => [.flowTrigger "stove_ash_limit_changed" [("ash_limit_percent", .num (.fin ashLimit))]]
    | none => []
  else []

/-- Source `setCapabilityValueIfChanged`: write a capability only when the
new value differs (`Object.is`) from the current one, firing the
associated flow trigger on a real change.  Write failures are not
modelled (writes always succeed). -/
def setCapabilityValueIfChanged (s : DeviceState) (capabilityId : String) (value : JSVal) :
    DeviceState × List Event :=
  match s.caps.lookup capabilityId with
  | none => (s, [])
  | some currentValue =>
    if currentValue = value then (s, [])
    else
      let s' := { s with caps := objInsert s.caps capabilityId value }
      (s', .capWrite capabilityId value :: triggerCapabilityFlow s' capabilityId value)

/-- Source `updatePelletsSetting`. -/
def updatePelletsSetting (s : DeviceState) (value : ℚ) : DeviceState × List Event :=
  match coerceNumber s.settingsPelletsKg with
  | some current =>
    if |current - value| < 1/100 then (s, [])
    else ({ s with settingsPelletsKg := .num (.fin value) },
          [.settingsWrite "pellets_kg" (.num (.fin value))])
  | none =>
    ({ s with settingsPelletsKg := .num (.fin value) },
     [.settingsWrite "pellets_kg" (.num (.fin value))])

/-- Source `updatePelletsCapabilityMax`. -/
def updatePelletsCapabilityMax (s : DeviceState) : List Event :=
  if hasCapability s "measure_stove_pellets" then
    [.capOptionsWrite "measure_stove_pellets" s.pelletsMaxKg]
  else []

/-- Source `setPelletsRemaining`.  Every source call site passes a finite
number, so the value parameter is a rational. -/
def setPelletsRemaining (s : DeviceState) (value : ℚ) (updateSetting : Bool) :
    DeviceState × List Event :=
  let normalized := clampPelletsValue s.pelletsMaxKg (.fin value)
  if s.pelletsRemainingKg = some normalized then
    if updateSetting then updatePelletsSetting s normalized else (s, [])
  else
    let s1 := { s with pelletsRemainingKg := some normalized, storeRemaining := some normalized }
    let r2 := setCapabilityValueIfChanged s1 "measure_stove_pellets" (.num (.fin normalized))
    let r3 := setCapabilityValueIfChanged r2.1 "stove_pellets_actual" (.num (.fin normalized))
    if updateSetting then
      let r4 := updatePelletsSetting r3.1 normalized
      (r4.1, Event.storeWrite "pelletsRemainingKg" normalized :: (r2.2 ++ r3.2 ++ r4.2))
    else (r3.1, Event.storeWrite "pelletsRemainingKg" normalized :: (r2.2 ++ r3.2))

/-- Source `initializePelletsState` (name shortened): derive remaining
from the persistent store, else the `pellets_kg` setting, else the
default of 15, clamping against the max parsed from settings; adopt a
stored consumption baseline when present; publish to both pellet
capabilities. -/
def initPelletsState (s : DeviceState) : DeviceState × List Event :=
  let configuredRemaining := coerceNumber s.settingsPelletsKg
  let s0 := { s with pelletsMaxKg := parsePelletsMaxKg s.settingsMaxKg }
  let e0 := updatePelletsCapabilityMax s0
  let remaining :=
    match s0.storeRemaining with
    | some stored => clampPelletsValue s0.pelletsMaxKg (.fin stored)
    | none =>
      match configuredRemaining with
      | some configured => clampPelletsValue s0.pelletsMaxKg (.fin configured)
      | none => clampPelletsValue s0.pelletsMaxKg (.fin 15)
  let s1 := { s0 with pelletsRemainingKg := some remaining }
  let s2 :=
    match s1.storeConsumption with
    | some storedConsumption => { s1 with lastConsumptionKg := some storedConsumption }
    | none => s1
  let r3 := setCapabilityValueIfChanged s2 "measure_stove_pellets" (.num (.fin remaining))
  let r4 := setCapabilityValueIfChanged r3.1 "stove_pellets_actual" (.num (.fin remaining))
  (r4.1, e0 ++ r3.2 ++ r4.2)

/-- Source `updatePelletsFromConsumption`.  In the exact-rational model a
difference of finite numbers is always finite, so only the `delta < 0`
disjunct of the floor-at-zero guard is live. -/
def updatePelletsFromConsumption (s : DeviceState) (consumptionKg : JSNum) :
    DeviceState × List Event :=
  match consumptionKg with
  | .fin c =>
    let r0 := if s.pelletsRemainingKg = none then initPelletsState s else (s, [])
    let s0 := r0.1
    match s0.lastConsumptionKg with
    | none =>
      let s1 := { s0 with lastConsumptionKg := some c, storeConsumption := some c }
      match s1.pelletsRemainingKg with
      | some r =>
        let r2 := setCapabilityValueIfChanged s1 "measure_stove_pellets" (.num (.fin r))
        let r3 := setCapabilityValueIfChanged r2.1 "stove_pellets_actual" (.num (.fin r))
        (r3.1, r0.2 ++ (Event.storeWrite "pelletsLastConsumptionKg" c :: (r2.2 ++ r3.2)))
      | none => (s1, r0.2 ++ [Event.storeWrite "pelletsLastConsumptionKg" c])
    | some last =>
      let delta := if c - last < 0 then 0 else c - last
      let currentRemaining := s0.pelletsRemainingKg.getD 0
      let next := clampPelletsValue s0.pelletsMaxKg (.fin (currentRemaining - delta))
      let next' :=
        if next = 0 then
          match getPelletsAutoResetValue s0.pelletsAutoResetMode, s0.pelletsHoldAutoReset with
          | some resetValue, false => resetValue
          | _, _ => next
        else next
      let s1 := { s0 with lastConsumptionKg := some c, storeConsumption := some c }
      let r2 := setPelletsRemaining s1 next' true
      (r2.1, r0.2 ++ (Event.storeWrite "pelletsLastConsumptionKg" c :: r2.2))
  | _ => (s, [])

/-- Source `handlePelletsOverride`: a manual override clears the hold-flag
and sets remaining directly (clamped). -/
def handlePelletsOverride (s : DeviceState) (value : JSVal) :
    Except String (DeviceState × List Event) :=
  match coerceNumber value with
  | none => .error "Invalid pellets value"
  | some normalized =>
    let s' := { s with pelletsHoldAutoReset := false }
    .ok (setPelletsRemaining s' normalized true)

/-- Source `applyErrorState`: the error state machine step on a flattened
status document. -/
def applyErrorState (s : DeviceState) (flat : List (String × JSVal)) :
    DeviceState × List Event :=
  match getErrorNumber flat with
  | none => (s, [])
  | some errorNumber =>
    if errorNumber = 0 then
      let s0 := { s with pelletsHoldAutoReset := false }
      let r1 := setCapabilityValueIfChanged s0 "stove_error_state" (.bool false)
      let r2 := setCapabilityValueIfChanged r1.1 "stove_error_code" (.str "")
      if r2.1.lastErrorCode.getD "" ≠ "" then
        ({ r2.1 with lastErrorCode := none, lastErrorMessage := none }, r1.2 ++ r2.2 ++ [.unwarn])
      else (r2.1, r1.2 ++ r2.2)
    else
      let r0 :=
        if errorNumber = 21 ∨ errorNumber = 26 then
          setPelletsRemaining { s with pelletsHoldAutoReset := true } 0 true
        else ({ s with pelletsHoldAutoReset := false }, [])
      let errorCode := formatErrorCode errorNumber
      let r1 := setCapabilityValueIfChanged r0.1 "stove_error_code" (.str errorCode)
      let errorCauses :=
        ((ERROR_CODE_MAP errorNumber).map localize).filter
          (fun cause => !(jsTrimChars cause.toList).isEmpty)
      let errorMessage := formatErrorMessage errorCode errorCauses (localize "errors.unknown")
      let r2 := setCapabilityValueIfChanged r1.1 "stove_error_state" (.bool true)
      if r2.1.lastErrorCode ≠ some errorCode then
        ({ r2.1 with lastErrorCode := some errorCode, lastErrorMessage := some errorMessage },
         r0.2 ++ r1.2 ++ r2.2 ++
           [.flowTrigger "stove_error"
              [("error_code", .str errorCode), ("error_message", .str errorMessage)],
            .warn errorMessage, .notify errorMessage])
      else if r2.1.lastErrorMessage ≠ some errorMessage then
        ({ r2.1 with lastErrorMessage := some errorMessage }, r0.2 ++ r1.2 ++ r2.2 ++ [.warn errorMessage])
      else (r2.1, r0.2 ++ r1.2 ++ r2.2)

/-- Source `updateMetaSettings`: mirror `meta.hw_version`, `meta.sw_version`
and `meta.typ` into settings when they differ from the stored values. -/
def updateMetaSettings (s : DeviceState) (flat : List (String × JSVal)) :
    DeviceState × List Event :=
  let hwVersion := normalizeMetaValue (flatGet flat "meta.hw_version")
  let swVersion := normalizeMetaValue (flatGet flat "meta.sw_version")
  let deviceType := normalizeMetaValue (flatGet flat "meta.typ")
  let hwNew : Option String :=
    match hwVersion with
    | some hw =>
      if hw ≠ jsValToString (nullishCoalesce s.settingsMetaHw (.str "")) then some hw else none
    | none => none
  let swNew : Option String :=
    match swVersion with
    | some sw =>
      if sw ≠ jsValToString (nullishCoalesce s.settingsMetaSw (.str "")) then some sw else none
    | none => none
  let typNew : Option String :=
    match deviceType with
    | some typ =>
      if typ ≠ jsValToString (nullishCoalesce s.settingsMetaTyp (.str "")) then some typ else none
    | none => none
  let s1 := match hwNew with | some hw => { s with settingsMetaHw := .str hw } | none => s
  let s2 := match swNew with | some sw => { s1 with settingsMetaSw := .str sw } | none => s1
  let s3 := match typNew with | some typ => { s2 with settingsMetaTyp := .str typ } | none => s2
  (s3,
    (hwNew.map (fun hw => Event.settingsWrite "meta_hw_version" (.str hw))).toList ++
    (swNew.map (fun sw => Event.settingsWrite "meta_sw_version" (.str sw))).toList ++
    (typNew.map (fun typ => Event.settingsWrite "meta_typ" (.str typ))).toList)

/-- The capability-diff loop at the end of `applyStatus`, over the
`STATE_TO_CAPABILITY` entries (skipping the two unit-converted keys). -/
def applyStatusLoop (s : DeviceState) (flat : List (String × JSVal)) :
    List (String × String) → DeviceState × List Event
  | [] => (s, [])
  | (stateKey, capabilityId) :: rest =>
    let r1 :=
      if (flat.lookup stateKey).isSome then
        if stateKey = "cleaning_in" ∨ stateKey = "maintenance_in" then (s, [])
        else
          match coerceValue capabilityId (flatGet flat stateKey) with
          | some value => setCapabilityValueIfChanged s capabilityId value
          | none => (s, [])
      else (s, [])
    let r2 := applyStatusLoop r1.1 flat rest
    (r2.1, r1.2 ++ r2.2)

/-- Source `applyStatus`: flatten, track eco editability, run the error
state machine, mirror metadata, convert the cleaning/maintenance fields,
feed the consumption counter to the estimator, then diff-and-publish every
mapped field. -/
def applyStatus (s : DeviceState) (doc : List (String × SVal)) :
    DeviceState × List Event :=
  let flat := flattenStatus doc
  let s0 :=
    match coerceBoolean (flatGet flat "meta.eco_editable") with
    | some b => { s with ecoEditable := b }
    | none => s
  let r1 := applyErrorState s0 flat
  let r2 := updateMetaSettings r1.1 flat
  let r3 :=
    if (flat.lookup "cleaning_in").isSome then
      match coerceNumber (flatGet flat "cleaning_in") with
      | some minutes =>
        setCapabilityValueIfChanged r2.1 "measure_stove_cleaning_in"
          (.num (.fin (roundTo (minutes / 60) 1)))
      | none => (r2.1, [])
    else (r2.1, [])
  let r4 :=
    if (flat.lookup "maintenance_in").isSome then
      match coerceNumber (flatGet flat "maintenance_in") with
      | some maintenanceKg =>
        let percent := 100 - maintenanceKg / 1000 * 100
        let clamped := min 100 (max 0 percent)
        setCapabilityValueIfChanged r3.1 "measure_stove_maintenance_in"
          (.num (.fin (roundTo clamped 1)))
      | none => (r3.1, [])
    else (r3.1, [])
  let r5 :=
    match coerceNumber (flatGet flat "consumption") with
    | some consumption => updatePelletsFromConsumption r4.1 (.fin consumption)
    | none => (r4.1, [])
  let r6 := applyStatusLoop r5.1 flat STATE_TO_CAPABILITY
  (r6.1, r1.2 ++ r2.2 ++ r3.2 ++ r4.2 ++ r5.2 ++ r6.2)

/-- Source `sendCommand` (without the wall-clock timestamp and the
read-back poll pass, which are outside this model): record the payload,
stop polling, post, request a reconciliation pass. -/
def sendCommand (s : DeviceState) (payload : List (String × JSVal)) :
    Except String (DeviceState × List Event) :=
  if ¬s.apiConfigured then .error "Device not configured"
  else
    .ok ({ s with lastCommandPayload := some payload },
      [.stopPollingEvent, .postCommand payload, .pollRequested])

/-- Source `handleTargetTemperature`: guarded by the weekly-program
capability value. -/
def handleTargetTemperature (s : DeviceState) (value : JSVal) :
    Except String (DeviceState × List Event) :=
  if getCapabilityValue s "stove_weekprogram_active" = .bool true then
    .error "Weekly program is active"
  else
    match coerceNumber value with
    | none => .error "Invalid target temperature"
    | some normalized => sendCommand s [("sp_temp", .num (.fin normalized))]

/-- The `pellets_max_kg` branch of `onSettings`: adopt the new max, update
the capability option, and re-clamp the current remaining value. -/
def handleMaxKgSetting (s : DeviceState) (value : JSVal) : DeviceState × List Event :=
  let s0 := { s with pelletsMaxKg := parsePelletsMaxKg value, settingsMaxKg := value }
  let e0 := updatePelletsCapabilityMax s0
  match s0.pelletsRemainingKg with
  | some r =>
    let r1 := setPelletsRemaining s0 r true
    (r1.1, e0 ++ r1.2)
  | none => (s0, e0)

/-- The pellet-inventory operations quantified over by the inventory
invariant: consumption reports, manual overrides, `maxKg` setting
changes, and error-state reports (which force remaining to zero on the
hopper-empty fault class). -/
inductive PelletsOp where
  | consumption (c : JSNum)
  | override (v : JSVal)
  | setMax (v : JSVal)
  | errorReport (flat : List (String × JSVal))

/-- One pellet-inventory operation (a failed override leaves the state
unchanged, as the exception propagates before any mutation). -/
def pelletsStep (s : DeviceState) : PelletsOp → DeviceState × List Event
  | .consumption c => updatePelletsFromConsumption s c
  | .override v =>
    match handlePelletsOverride s v with
    | .ok r => r
    | .error _ => (s, [])
  | .setMax v => handleMaxKgSetting s v
  | .errorReport flat => applyErrorState s flat

/-- Run a sequence of pellet-inventory operations. -/
def pelletsRun (s : DeviceState) : List PelletsOp → DeviceState
  | [] => s
  | op :: ops => pelletsRun (pelletsStep s op).1 ops

/-- The `HaasSohnApi` session state.  The `md5` primitive of the crypto
library is modelled as an abstract hash function passed explicitly. -/
structure ApiState where
  address : String
  pin : String
  hpin : String
  hspin : Option String
  nonce : Option String
deriving Repr, DecidableEq

/-- The `HaasSohnApi` constructor. -/
def mkApi (hash : String → String) (address pin : String) : ApiState :=
  { address := address, pin := pin, hpin := hash pin, hspin := none, nonce := none }

/-- Source `setNonce`: adopt the nonce and recompute the session secret as
`hash(nonce + hash(pin))`. -/
def setNonce (hash : String → String) (s : ApiState) (nonce : String) : ApiState :=
  { s with nonce := some nonce, hspin := some (hash (nonce ++ s.hpin)) }

/-- The `meta?.nonce` extraction of `getStatus`: a non-empty string nonce
from the document's `meta` object, if any. -/
def nonceOf (doc : List (String × SVal)) : Option String :=
  match doc.lookup "meta" with
  | some (.obj metaFields) =>
    match metaFields.lookup "nonce" with
    | some (.str n) => if n.length > 0 then some n else none
    | _ => none
  | _ => none

/-- Source `getStatus`, for a successful fetch returning `doc`: adopt the
document's nonce when it is a non-empty string. -/
def getStatus (hash : String → String) (s : ApiState) (doc : List (String × SVal)) : ApiState :=
  match nonceOf doc with
  | some n => setNonce hash s n
  | none => s

/-- JSON.stringify of a payload value (`undefined` members are omitted). -/
def stringifyJSVal : JSVal → Option String
  | .undef => none
  | .null => some "null"
  | .bool true => some "true"
  | .bool false => some "false"
  | .num (.fin q) => some (qToString q)
  | .num _ => some "null"
  | .str s => some ("\"" ++ jsonEscape s ++ "\"")

/-- JSON.stringify of a command payload object. -/
def jsonOfPayload (payload : List (String × JSVal)) : String :=
  let parts := payload.filterMap
    (fun kv => (stringifyJSVal kv.2).map (fun v => "\"" ++ jsonEscape kv.1 ++ "\":" ++ v))
  "\x7b" ++ String.intercalate "," parts ++ "\x7d"

/-- Source `createHeaders`: the headers of an outbound POST; `X-HS-PIN`
carries the held session secret (empty when none). -/
def createHeaders (s : ApiState) (body : String) : List (String × String) :=
  [("Accept", "*/*"),
   ("Accept-Language", "en-US,en;q=0.9"),
   ("Connection", "keep-alive"),
   ("Content-Length", toString body.utf8ByteSize),
   ("Content-Type", "application/json"),
   ("User-Agent", "homey-haassohn"),
   ("X-HS-PIN", s.hspin.getD "")]

/-- Source `postStatus`: when no session secret is held yet, first force a
status fetch (whose successful result is `fetchDoc`), then POST with the
session headers. -/
def postStatus (hash : String → String) (s : ApiState) (payload : List (String × JSVal))
    (fetchDoc : List (String × SVal)) : ApiState × List (String × String) :=
  let s' := if s.hspin = none then getStatus hash s fetchDoc else s
  (s', createHeaders s' (jsonOfPayload payload))

/-- Events that are user-visible side effects: capability writes, flow
triggers, notifications, warning changes.  Store/settings persistence and
scheduling events are not user-visible. -/
def Event.isNoisy : Event → Bool
  | .capWrite _ _ => true
  | .flowTrigger _ _ => true
  | .notify _ => true
  | .warn _ => true
  | .unwarn => true
  | _ => false

/-- The user-visible events of an event trace. -/
def noisyEvents (evs : List Event) : List Event := evs.filter Event.isNoisy

/-! ### Basic lemmas about the association-list store -/

theorem lookup_objInsert_self (l : List (String × JSVal)) (k : String) (v : JSVal) :
    (objInsert l k v).lookup k = some v := by
  induction l with
  | nil => simp [objInsert, List.lookup]
  | cons hd tl ih =>
    rcases hd with ⟨k', v'⟩
    by_cases h : k' = k
    · subst h
      simp [objInsert, List.lookup]
    · simp [objInsert, h, List.lookup, beq_eq_false_iff_ne.mpr (Ne.symm h), ih]

theorem lookup_objInsert_ne (l : List (String × JSVal)) (k k' : String) (v : JSVal)
    (h : k' ≠ k) : (objInsert l k v).lookup k' = l.lookup k' := by
  induction l with
  | nil =>
    simp [objInsert, List.lookup, beq_eq_false_iff_ne.mpr h]
  | cons hd tl ih =>
    rcases hd with ⟨a, b⟩
    by_cases ha : a = k
    · subst ha
      simp [objInsert, List.lookup, beq_eq_false_iff_ne.mpr h]
    · by_cases hk : k' = a
      · subst hk
        simp [objInsert, ha, List.lookup]
      · simp [objInsert, ha, List.lookup, beq_eq_false_iff_ne.mpr hk, ih]

/-! ### Lemmas about `setCapabilityValueIfChanged` -/

theorem scv_shape (s : DeviceState) (id : String) (v : JSVal) :
    ∃ c, (setCapabilityValueIfChanged s id v).1 = { s with caps := c } := by
  cases h : s.caps.lookup id with
  | none => exact ⟨s.caps, by simp [setCapabilityValueIfChanged, h]⟩
  | some cur =>
    by_cases hv : cur = v
    · exact ⟨s.caps, by simp [setCapabilityValueIfChanged, h, hv]⟩
    · exact ⟨objInsert s.caps id v, by simp [setCapabilityValueIfChanged, h, hv]⟩

theorem scv_silent (s : DeviceState) (id : String) (v : JSVal)
    (h : s.caps.lookup id = none ∨ s.caps.lookup id = some v) :
    setCapabilityValueIfChanged s id v = (s, []) := by
  rcases h with h | h <;> simp [setCapabilityValueIfChanged, h]

theorem scv_settles (s : DeviceState) (id : String) (v : JSVal) :
    (setCapabilityValueIfChanged s id v).1.caps.lookup id = none ∨
    (setCapabilityValueIfChanged s id v).1.caps.lookup id = some v := by
  cases h : s.caps.lookup id with
  | none =>
    rw [scv_silent s id v (Or.inl h)]
    exact Or.inl h
  | some cur =>
    by_cases hv : cur = v
    · rw [scv_silent s id v (Or.inr (hv ▸ h))]
      exact Or.inr (hv ▸ h)
    · right
      simp only [setCapabilityValueIfChanged, h, hv]
      simp [lookup_objInsert_self]

theorem scv_caps_ne (s : DeviceState) (id id' : String) (v : JSVal) (h : id' ≠ id) :
    (setCapabilityValueIfChanged s id v).1.caps.lookup id' = s.caps.lookup id' := by
  cases hl : s.caps.lookup id with
  | none => rw [scv_silent s id v (Or.inl hl)]
  | some cur =>
    by_cases hv : cur = v
    · rw [scv_silent s id v (Or.inr (hv ▸ hl))]
    · simp only [setCapabilityValueIfChanged, hl, hv]
      simp [lookup_objInsert_ne _ _ _ _ h, hv]

/-! ### Lemmas about `updatePelletsSetting` -/

theorem ups_silent (s : DeviceState) (v cur : ℚ)
    (h : coerceNumber s.settingsPelletsKg = some cur) (hn : |cur - v| < 1/100) :
    updatePelletsSetting s v = (s, []) := by
  simp only [updatePelletsSetting, h]
  rw [if_pos hn]

theorem ups_shape (s : DeviceState) (v : ℚ) :
    ∃ p, (updatePelletsSetting s v).1 = { s with settingsPelletsKg := p } := by
  cases h : coerceNumber s.settingsPelletsKg with
  | none => exact ⟨.num (.fin v), by simp [updatePelletsSetting, h]⟩
  | some cur =>
    by_cases hn : |cur - v| < 1/100
    · exact ⟨s.settingsPelletsKg, by rw [ups_silent s v cur h hn]⟩
    · refine ⟨.num (.fin v), ?_⟩
      simp only [updatePelletsSetting, h]
      rw [if_neg hn]

theorem coerceNumber_finNum (q : ℚ) : coerceNumber (.num (.fin q)) = some q := rfl

theorem ups_near (s : DeviceState) (v : ℚ) :
    ∃ cur, coerceNumber (updatePelletsSetting s v).1.settingsPelletsKg = some cur ∧
      |cur - v| < 1/100 := by
  cases h : coerceNumber s.settingsPelletsKg with
  | none =>
    refine ⟨v, ?_, by simp⟩
    simp only [updatePelletsSetting, h]
    rfl
  | some cur =>
    by_cases hn : |cur - v| < 1/100
    · rw [ups_silent s v cur h hn]
      exact ⟨cur, h, hn⟩
    · refine ⟨v, ?_, by simp⟩
      simp only [updatePelletsSetting, h]
      rw [if_neg hn]
      rfl

/-! ### Frame lemmas: `setCapabilityValueIfChanged` only touches the
capability store, `updatePelletsSetting` only the `pellets_kg` setting. -/

@[simp] theorem scv_ecoEditable (s : DeviceState) (id : String) (v : JSVal) :
    (setCapabilityValueIfChanged s id v).1.ecoEditable = s.ecoEditable := by
  obtain ⟨c, hc⟩ := scv_shape s id v
  rw [hc]

@[simp] theorem scv_lastErrorCode (s : DeviceState) (id : String) (v : JSVal) :
    (setCapabilityValueIfChanged s id v).1.lastErrorCode = s.lastErrorCode := by
  obtain ⟨c, hc⟩ := scv_shape s id v
  rw [hc]

@[simp] theorem scv_lastErrorMessage (s : DeviceState) (id : String) (v : JSVal) :
    (setCapabilityValueIfChanged s id v).1.lastErrorMessage = s.lastErrorMessage := by
  obtain ⟨c, hc⟩ := scv_shape s id v
  rw [hc]

@[simp] theorem scv_pelletsRemainingKg (s : DeviceState) (id : String) (v : JSVal) :
    (setCapabilityValueIfChanged s id v).1.pelletsRemainingKg = s.pelletsRemainingKg := by
  obtain ⟨c, hc⟩ := scv_shape s id v
  rw [hc]

@[simp] theorem scv_lastConsumptionKg (s : DeviceState) (id : String) (v : JSVal) :
    (setCapabilityValueIfChanged s id v).1.lastConsumptionKg = s.lastConsumptionKg := by
  obtain ⟨c, hc⟩ := scv_shape s id v
  rw [hc]

@[simp] theorem scv_pelletsAutoResetMode (s : DeviceState) (id : String) (v : JSVal) :
    (setCapabilityValueIfChanged s id v).1.pelletsAutoResetMode = s.pelletsAutoResetMode := by
  obtain ⟨c, hc⟩ := scv_shape s id v
  rw [hc]

@[simp] theorem scv_pelletsMaxKg (s : DeviceState) (id : String) (v : JSVal) :
    (setCapabilityValueIfChanged s id v).1.pelletsMaxKg = s.pelletsMaxKg := by
  obtain ⟨c, hc⟩ := scv_shape s id v
  rw [hc]

@[simp] theorem scv_pelletsHoldAutoReset (s : DeviceState) (id : String) (v : JSVal) :
    (setCapabilityValueIfChanged s id v).1.pelletsHoldAutoReset = s.pelletsHoldAutoReset := by
  obtain ⟨c, hc⟩ := scv_shape s id v
  rw [hc]

@[simp] theorem scv_storeRemaining (s : DeviceState) (id : String) (v : JSVal) :
    (setCapabilityValueIfChanged s id v).1.storeRemaining = s.storeRemaining := by
  obtain ⟨c, hc⟩ := scv_shape s id v
  rw [hc]

@[simp] theorem scv_storeConsumption (s : DeviceState) (id : String) (v : JSVal) :
    (setCapabilityValueIfChanged s id v).1.storeConsumption = s.storeConsumption := by
  obtain ⟨c, hc⟩ := scv_shape s id v
  rw [hc]

@[simp] theorem scv_settingsPelletsKg (s : DeviceState) (id : String) (v : JSVal) :
    (setCapabilityValueIfChanged s id v).1.settingsPelletsKg = s.settingsPelletsKg := by
  obtain ⟨c, hc⟩ := scv_shape s id v
  rw [hc]

@[simp] theorem scv_settingsMaxKg (s : DeviceState) (id : String) (v : JSVal) :
    (setCapabilityValueIfChanged s id v).1.settingsMaxKg = s.settingsMaxKg := by
  obtain ⟨c, hc⟩ := scv_shape s id v
  rw [hc]

@[simp] theorem ups_caps (s : DeviceState) (v : ℚ) :
    (updatePelletsSetting s v).1.caps = s.caps := by
  obtain ⟨p, hp⟩ := ups_shape s v
  rw [hp]

@[simp] theorem ups_ecoEditable (s : DeviceState) (v : ℚ) :
    (updatePelletsSetting s v).1.ecoEditable = s.ecoEditable := by
  obtain ⟨p, hp⟩ := ups_shape s v
  rw [hp]

@[simp] theorem ups_lastErrorCode (s : DeviceState) (v : ℚ) :
    (updatePelletsSetting s v).1.lastErrorCode = s.lastErrorCode := by
  obtain ⟨p, hp⟩ := ups_shape s v
  rw [hp]

@[simp] theorem ups_lastErrorMessage (s : DeviceState) (v : ℚ) :
    (updatePelletsSetting s v).1.lastErrorMessage = s.lastErrorMessage := by
  obtain ⟨p, hp⟩ := ups_shape s v
  rw [hp]

@[simp] theorem ups_pelletsRemainingKg (s : DeviceState) (v : ℚ) :
    (updatePelletsSetting s v).1.pelletsRemainingKg = s.pelletsRemainingKg := by
  obtain ⟨p, hp⟩ := ups_shape s v
  rw [hp]

@[simp] theorem ups_lastConsumptionKg (s : DeviceState) (v : ℚ) :
    (updatePelletsSetting s v).1.lastConsumptionKg = s.lastConsumptionKg := by
  obtain ⟨p, hp⟩ := ups_shape s v
  rw [hp]

@[simp] theorem ups_pelletsAutoResetMode (s : DeviceState) (v : ℚ) :
    (updatePelletsSetting s v).1.pelletsAutoResetMode = s.pelletsAutoResetMode := by
  obtain ⟨p, hp⟩ := ups_shape s v
  rw [hp]

@[simp] theorem ups_pelletsMaxKg (s : DeviceState) (v : ℚ) :
    (updatePelletsSetting s v).1.pelletsMaxKg = s.pelletsMaxKg := by
  obtain ⟨p, hp⟩ := ups_shape s v
  rw [hp]

@[simp] theorem ups_pelletsHoldAutoReset (s : DeviceState) (v : ℚ) :
    (updatePelletsSetting s v).1.pelletsHoldAutoReset = s.pelletsHoldAutoReset := by
  obtain ⟨p, hp⟩ := ups_shape s v
  rw [hp]

@[simp] theorem ups_storeRemaining (s : DeviceState) (v : ℚ) :
    (updatePelletsSetting s v).1.storeRemaining = s.storeRemaining := by
  obtain ⟨p, hp⟩ := ups_shape s v
  rw [hp]

@[simp] theorem ups_storeConsumption (s : DeviceState) (v : ℚ) :
    (updatePelletsSetting s v).1.storeConsumption = s.storeConsumption := by
  obtain ⟨p, hp⟩ := ups_shape s v
  rw [hp]

@[simp] theorem ups_settingsMaxKg (s : DeviceState) (v : ℚ) :
    (updatePelletsSetting s v).1.settingsMaxKg = s.settingsMaxKg := by
  obtain ⟨p, hp⟩ := ups_shape s v
  rw [hp]

/-! ### Lemmas about `setPelletsRemaining` -/

theorem spr_remaining (s : DeviceState) (v : ℚ) (u : Bool) :
    (setPelletsRemaining s v u).1.pelletsRemainingKg
      = some (clampPelletsValue s.pelletsMaxKg (.fin v)) := by
  by_cases h : s.pelletsRemainingKg = some (clampPelletsValue s.pelletsMaxKg (.fin v))
  · simp only [setPelletsRemaining, if_pos h]
    split
    · simp [h]
    · exact h
  · simp only [setPelletsRemaining, if_neg h]
    split
    · simp
    · simp

@[simp] theorem spr_pelletsHoldAutoReset (s : DeviceState) (v : ℚ) (u : Bool) :
    (setPelletsRemaining s v u).1.pelletsHoldAutoReset = s.pelletsHoldAutoReset := by
  simp only [setPelletsRemaining]
  split
  · split <;> simp
  · split <;> simp

@[simp] theorem spr_pelletsMaxKg (s : DeviceState) (v : ℚ) (u : Bool) :
    (setPelletsRemaining s v u).1.pelletsMaxKg = s.pelletsMaxKg := by
  simp only [setPelletsRemaining]
  split
  · split <;> simp
  · split <;> simp

@[simp] theorem spr_pelletsAutoResetMode (s : DeviceState) (v : ℚ) (u : Bool) :
    (setPelletsRemaining s v u).1.pelletsAutoResetMode = s.pelletsAutoResetMode := by
  simp only [setPelletsRemaining]
  split
  · split <;> simp
  · split <;> simp

@[simp] theorem spr_lastConsumptionKg (s : DeviceState) (v : ℚ) (u : Bool) :
    (setPelletsRemaining s v u).1.lastConsumptionKg = s.lastConsumptionKg := by
  simp only [setPelletsRemaining]
  split
  · split <;> simp
  · split <;> simp

@[simp] theorem spr_storeConsumption (s : DeviceState) (v : ℚ) (u : Bool) :
    (setPelletsRemaining s v u).1.storeConsumption = s.storeConsumption := by
  simp only [setPelletsRemaining]
  split
  · split <;> simp
  · split <;> simp

@[simp] theorem spr_ecoEditable (s : DeviceState) (v : ℚ) (u : Bool) :
    (setPelletsRemaining s v u).1.ecoEditable = s.ecoEditable := by
  simp only [setPelletsRemaining]
  split
  · split <;> simp
  · split <;> simp

@[simp] theorem spr_lastErrorCode (s : DeviceState) (v : ℚ) (u : Bool) :
    (setPelletsRemaining s v u).1.lastErrorCode = s.lastErrorCode := by
  simp only [setPelletsRemaining]
  split
  · split <;> simp
  · split <;> simp

@[simp] theorem spr_lastErrorMessage (s : DeviceState) (v : ℚ) (u : Bool) :
    (setPelletsRemaining s v u).1.lastErrorMessage = s.lastErrorMessage := by
  simp only [setPelletsRemaining]
  split
  · split <;> simp
  · split <;> simp

@[simp] theorem spr_settingsMaxKg (s : DeviceState) (v : ℚ) (u : Bool) :
    (setPelletsRemaining s v u).1.settingsMaxKg = s.settingsMaxKg := by
  simp only [setPelletsRemaining]
  split
  · split <;> simp
  · split <;> simp

theorem spr_caps_ne (s : DeviceState) (v : ℚ) (u : Bool) (id : String)
    (h1 : id ≠ "measure_stove_pellets") (h2 : id ≠ "stove_pellets_actual") :
    (setPelletsRemaining s v u).1.caps.lookup id = s.caps.lookup id := by
  simp only [setPelletsRemaining]
  split
  · split <;> simp
  · split <;> simp [scv_caps_ne _ _ _ _ h1, scv_caps_ne _ _ _ _ h2]

theorem spr_near (s : DeviceState) (v : ℚ) :
    ∃ cur, coerceNumber (setPelletsRemaining s v true).1.settingsPelletsKg = some cur ∧
      |cur - clampPelletsValue s.pelletsMaxKg (.fin v)| < 1/100 := by
  simp only [setPelletsRemaining]
  split
  · simpa using ups_near s (clampPelletsValue s.pelletsMaxKg (.fin v))
  · simpa using ups_near _ (clampPelletsValue s.pelletsMaxKg (.fin v))

/-! ### Arithmetic lemmas about rounding and clamping -/

theorem jsRound_eq_floor (q : ℚ) : jsRound q = ⌊q + 1/2⌋ := by
  have hd0 : ((q.den : ℚ)) ≠ 0 := by
    exact_mod_cast q.den_nz
  have hqd : (q.num : ℚ) = q * (q.den : ℚ) := by
    field_simp
  have h : q + 1/2 = (((2 * q.num + (q.den : ℤ)) : ℤ) : ℚ) / (((2 * q.den : ℕ) : ℕ) : ℚ) := by
    push_cast
    field_simp
    linarith [hqd]
  rw [h, Rat.floor_intCast_div_natCast]
  rfl

theorem jsRound_natCast (n : ℕ) : jsRound ((n : ℚ)) = (n : ℤ) := by
  rw [jsRound_eq_floor, add_comm, Int.floor_add_nat]
  norm_num

theorem jsRound_mono {q q' : ℚ} (h : q ≤ q') : jsRound q ≤ jsRound q' := by
  rw [jsRound_eq_floor, jsRound_eq_floor]
  exact Int.floor_le_floor (by linarith)

theorem clamp_nonneg (M : ℚ) (x : JSNum) (hM : 0 ≤ M) : 0 ≤ clampPelletsValue M x := by
  cases x with
  | fin q =>
    simp only [clampPelletsValue]
    exact le_min hM (le_max_left _ _)
  | nan => norm_num [clampPelletsValue]
  | inf b => norm_num [clampPelletsValue]

theorem clamp_le_max (M : ℚ) (q : ℚ) : clampPelletsValue M (.fin q) ≤ M := by
  simp only [clampPelletsValue]
  exact min_le_left _ _

theorem clamp_natCast (M : ℚ) (k : ℕ) (hk : (k : ℚ) ≤ M) :
    clampPelletsValue M (.fin (k : ℚ)) = (k : ℚ) := by
  simp only [clampPelletsValue]
  rw [jsRound_natCast]
  push_cast
  rw [max_eq_right (by positivity), min_eq_right hk]

theorem clamp_zero (M : ℚ) (hM : 0 ≤ M) : clampPelletsValue M (.fin 0) = 0 := by
  have h := clamp_natCast M 0 (by simpa using hM)
  simpa using h

theorem clamp_nonpos (M : ℚ) (q : ℚ) (hq : q ≤ 0) (hM : 0 ≤ M) :
    clampPelletsValue M (.fin q) = 0 := by
  simp only [clampPelletsValue]
  have h0 : jsRound (0 : ℚ) = 0 := by decide
  have hr : jsRound q ≤ 0 := h0 ▸ jsRound_mono hq
  rw [max_eq_left (by exact_mod_cast hr), min_eq_right hM]

theorem clamp_nat_output (M : ℚ) (n : ℕ) (q : ℚ) (hM : M = (n : ℚ)) :
    ∃ k : ℕ, clampPelletsValue M (.fin q) = (k : ℚ) ∧ k ≤ n := by
  subst hM
  simp only [clampPelletsValue]
  rcases le_total ((jsRound q : ℚ)) 0 with h0 | h0
  · refine ⟨0, ?_, Nat.zero_le _⟩
    rw [max_eq_left h0, min_eq_right (by positivity)]
    norm_num
  · rcases le_total ((jsRound q : ℚ)) ((n : ℚ)) with hn | hn
    · have h0z : (0 : ℤ) ≤ jsRound q := by exact_mod_cast h0
      refine ⟨(jsRound q).toNat, ?_, ?_⟩
      · rw [max_eq_right h0, min_eq_right hn]
        exact_mod_cast (Int.toNat_of_nonneg h0z).symm
      · exact Int.toNat_le.mpr (by exact_mod_cast hn)
    · refine ⟨n, ?_, le_refl n⟩
      rw [max_eq_right h0, min_eq_left hn]

/-! ### Example states used by concrete witnesses and counterexamples -/

/-- A plain healthy device state: no fault, 15 kg remaining of a 30 kg
hopper, consumption baselined at 100 kg. -/
def exState : DeviceState :=
  { ecoEditable := true
    lastErrorCode := none
    lastErrorMessage := none
    pelletsRemainingKg := some 15
    lastConsumptionKg := some 100
    pelletsAutoResetMode := .none
    pelletsMaxKg := 30
    pelletsHoldAutoReset := false
    caps := [("measure_stove_pellets", .num (.fin 15)), ("stove_pellets_actual", .num (.fin 15)),
             ("stove_error_state", .bool false), ("stove_error_code", .str ""),
             ("measure_stove_consumption", .null), ("stove_weekprogram_active", .bool false)]
    storeRemaining := some 15
    storeConsumption := some 100
    settingsPelletsKg := .num (.fin 15)
    settingsMaxKg := .num (.fin 30)
    settingsMetaHw := .str ""
    settingsMetaSw := .str ""
    settingsMetaTyp := .str ""
    apiConfigured := true
    lastCommandPayload := none }

/-- The healthy state before the first consumption report of a session:
the estimator holds 15 kg but the cumulative counter has not been
baselined yet. -/
def cState10 : DeviceState :=
  { exState with lastConsumptionKg := none }

/-- An empty-hopper state with refill-to-15 auto-reset armed and the
cumulative consumption counter not yet baselined. -/
def c3State : DeviceState :=
  { exState with
    pelletsRemainingKg := some 0
    lastConsumptionKg := none
    pelletsAutoResetMode := .reset15
    caps := [("measure_stove_pellets", .num (.fin 0)), ("stove_pellets_actual", .num (.fin 0)),
             ("stove_error_state", .bool false), ("stove_error_code", .str ""),
             ("measure_stove_consumption", .null), ("stove_weekprogram_active", .bool false)]
    storeRemaining := some 0
    storeConsumption := none
    settingsPelletsKg := .num (.fin 0) }

/-- A status document reporting only the cumulative consumption counter. -/
def c3Doc : List (String × SVal) := [("consumption", .num 5)]

/-! ### Claim theorems -/

/-- C8: if the weekly-program capability value is `true` when a
target-temperature change is requested, the request fails with the guard
violation "Weekly program is active"; the `.error` result carries no
state change and no posted command (the guard throws before any
mutation or POST in `handleTargetTemperature`/`sendCommand`). -/
theorem target_temperature_guard (s : DeviceState) (value : JSVal)
    (h : getCapabilityValue s "stove_weekprogram_active" = .bool true) :
    handleTargetTemperature s value = .error "Weekly program is active" := by
  simp [handleTargetTemperature, h]

theorem target_temperature_guard_witness :
    getCapabilityValue { exState with caps := [("stove_weekprogram_active", .bool true)] }
        "stove_weekprogram_active" = .bool true ∧
    handleTargetTemperature { exState with caps := [("stove_weekprogram_active", .bool true)] }
        (.num (.fin 22)) = .error "Weekly program is active" :=
  ⟨by decide, target_temperature_guard _ _ (by decide)⟩

/-- C7: on every successful status fetch whose document carries a
non-empty string `meta.nonce`, the session secret becomes
`hash(nonce + hash(pin))`; a POST issued before any nonce has been
observed first forces a status fetch; the `X-HS-PIN` header of every
outbound POST carries exactly the held session secret (the empty string
when none), which is always of the form `hash(nonce + hash(pin))` —
never the raw or single-hashed PIN value itself. -/
theorem session_secret_protocol (hash : String → String) (s : ApiState)
    (payload : List (String × JSVal)) (doc : List (String × SVal))
    (hpin : s.hpin = hash s.pin)
    (hsync : s.hspin = none ↔ s.nonce = none)
    (hheld : ∀ h, s.hspin = some h → ∃ m, h = hash (m ++ hash s.pin)) :
    (∀ n, nonceOf doc = some n →
      (getStatus hash s doc).hspin = some (hash (n ++ hash s.pin))) ∧
    (s.nonce = none → (postStatus hash s payload doc).1 = getStatus hash s doc) ∧
    ((postStatus hash s payload doc).2.lookup "X-HS-PIN" =
      some (((postStatus hash s payload doc).1.hspin).getD "")) ∧
    (∀ h, (postStatus hash s payload doc).1.hspin = some h →
      ∃ m, h = hash (m ++ hash s.pin)) := by
  refine ⟨?_, ?_, ?_, ?_⟩
  · intro n hn
    simp [getStatus, setNonce, hn, hpin]
  · intro hnone
    have hs : s.hspin = none := hsync.mpr hnone
    simp [postStatus, hs]
  · rfl
  · intro h hh
    simp only [postStatus] at hh
    by_cases hs : s.hspin = none
    · rw [if_pos hs] at hh
      cases hn : nonceOf doc with
      | none => simp [getStatus, hn, hs] at hh
      | some n =>
        simp only [getStatus, hn, setNonce] at hh
        exact ⟨n, by simpa [hpin] using hh.symm⟩
    · rw [if_neg hs] at hh
      exact hheld h hh

theorem session_secret_protocol_witness :
    ((mkApi (fun t => "#" ++ t) "192.168.0.2" "1234").hpin
        = (fun t => "#" ++ t) (mkApi (fun t => "#" ++ t) "192.168.0.2" "1234").pin) ∧
    ((∀ n, nonceOf [("meta", .obj [("nonce", .str "n1")])] = some n →
        (getStatus (fun t => "#" ++ t) (mkApi (fun t => "#" ++ t) "192.168.0.2" "1234")
            [("meta", .obj [("nonce", .str "n1")])]).hspin
          = some ((fun t => "#" ++ t)
              (n ++ (fun t => "#" ++ t) (mkApi (fun t => "#" ++ t) "192.168.0.2" "1234").pin))) ∧
      ((mkApi (fun t => "#" ++ t) "192.168.0.2" "1234").nonce = none →
        (postStatus (fun t => "#" ++ t) (mkApi (fun t => "#" ++ t) "192.168.0.2" "1234")
            [("prg", .bool true)] [("meta", .obj [("nonce", .str "n1")])]).1
          = getStatus (fun t => "#" ++ t) (mkApi (fun t => "#" ++ t) "192.168.0.2" "1234")
              [("meta", .obj [("nonce", .str "n1")])]) ∧
      ((postStatus (fun t => "#" ++ t) (mkApi (fun t => "#" ++ t) "192.168.0.2" "1234")
            [("prg", .bool true)] [("meta", .obj [("nonce", .str "n1")])]).2.lookup "X-HS-PIN" =
        some (((postStatus (fun t => "#" ++ t) (mkApi (fun t => "#" ++ t) "192.168.0.2" "1234")
            [("prg", .bool true)] [("meta", .obj [("nonce", .str "n1")])]).1.hspin).getD "")) ∧
      (∀ h, (postStatus (fun t => "#" ++ t) (mkApi (fun t => "#" ++ t) "192.168.0.2" "1234")
            [("prg", .bool true)] [("meta", .obj [("nonce", .str "n1")])]).1.hspin = some h →
        ∃ m, h = (fun t => "#" ++ t)
            (m ++ (fun t => "#" ++ t) (mkApi (fun t => "#" ++ t) "192.168.0.2" "1234").pin))) :=
  ⟨rfl,
   session_secret_protocol (fun t => "#" ++ t) (mkApi (fun t => "#" ++ t) "192.168.0.2" "1234")
     [("prg", .bool true)] [("meta", .obj [("nonce", .str "n1")])] rfl (by simp [mkApi])
     (fun h hh => by simp [mkApi] at hh)⟩

unseal Rat.add Rat.sub Rat.mul Rat.inv in
/-- C9 counterexample: with `pellets_max_kg` set to the fractional value
2.4, a manual override of 5 kg is stored as 2.4 kg — not a whole number
of kilograms — refuting "every remaining-pellets value that is stored or
published is a whole number of kilograms". -/
theorem fractional_max_counterexample :
    ((handlePelletsOverride { exState with pelletsMaxKg := 12/5 } (.num (.fin 5))).toOption.map
        (fun r => r.1.pelletsRemainingKg) = some (some (12/5))) ∧
    ((12/5 : ℚ)).den ≠ 1 :=
  ⟨by decide, by decide⟩

unseal Rat.add Rat.sub Rat.mul Rat.inv in
/-- C9 amended: `clampPelletsValue` rounds to the nearest integer (half
up, so a manual override of 12.5 kg is stored as 13 kg under the default
maximum of 30 kg) and clamps to `[0, maxKg]`, and any non-finite input
becomes the default of 15; consequently every stored remaining value is a
whole number of kilograms whenever `maxKg` is itself a whole number.
With a fractional `maxKg`, an over-max input is stored as `maxKg` itself,
which is not whole. -/
theorem pellets_whole_when_max_whole (s : DeviceState) (v : JSVal) (n : ℕ)
    (hM : s.pelletsMaxKg = ((n : ℕ) : ℚ)) :
    (∀ st evs, handlePelletsOverride s v = .ok (st, evs) →
      ∃ k : ℕ, st.pelletsRemainingKg = some ((k : ℚ)) ∧ (k : ℚ) ≤ s.pelletsMaxKg) ∧
    clampPelletsValue s.pelletsMaxKg .nan = 15 ∧
    clampPelletsValue (30 : ℚ) (.fin (25/2)) = 13 := by
  refine ⟨?_, rfl, by decide⟩
  intro st evs hok
  cases hv : coerceNumber v with
  | none => simp [handlePelletsOverride, hv] at hok
  | some q =>
    simp only [handlePelletsOverride, hv, Except.ok.injEq] at hok
    obtain ⟨k, hk, hkn⟩ := clamp_nat_output s.pelletsMaxKg n q hM
    have hrem := spr_remaining { s with pelletsHoldAutoReset := false } q true
    have hst : (setPelletsRemaining { s with pelletsHoldAutoReset := false } q true).1 = st :=
      congrArg Prod.fst hok
    refine ⟨k, ?_, ?_⟩
    · rw [← hst, hrem]
      exact congrArg some hk
    · rw [hM]
      exact_mod_cast hkn

theorem pellets_whole_when_max_whole_witness :
    exState.pelletsMaxKg = (((30 : ℕ) : ℕ) : ℚ) ∧
    ((∀ st evs, handlePelletsOverride exState (.num (.fin (25/2))) = .ok (st, evs) →
        ∃ k : ℕ, st.pelletsRemainingKg = some ((k : ℚ)) ∧ (k : ℚ) ≤ exState.pelletsMaxKg) ∧
      clampPelletsValue exState.pelletsMaxKg .nan = 15 ∧
      clampPelletsValue (30 : ℚ) (.fin (25/2)) = 13) :=
  ⟨by norm_num [exState],
   pellets_whole_when_max_whole exState (.num (.fin (25/2))) 30 (by norm_num [exState])⟩

/-- A device state currently in `Faulted(F021)`. -/
def faultedState : DeviceState :=
  { exState with
    lastErrorCode := some "F021"
    lastErrorMessage := some "F021: errors.21.1"
    pelletsRemainingKg := some 0
    storeRemaining := some 0
    pelletsHoldAutoReset := true
    caps := [("stove_error_state", .bool true), ("stove_error_code", .str "F021"),
             ("measure_stove_pellets", .num (.fin 0)), ("stove_pellets_actual", .num (.fin 0))] }

/-- C5 counterexample: in `Faulted(F021)`, a flattened status in which
none of `error.nr`, `error`, `err.nr`, `err` parses to a number (here:
an empty document) does NOT transition the machine to `Clear`:
`applyErrorState` returns early, the tracked code stays `"F021"`, the
message is not reset, and no warning-clear is emitted — refuting the
claim that an absent fault number clears the fault. -/
theorem absent_fault_number_counterexample :
    getErrorNumber [] = none ∧
    (applyErrorState faultedState []).1.lastErrorCode = some "F021" ∧
    (applyErrorState faultedState []).1.lastErrorMessage ≠ none ∧
    (applyErrorState faultedState []).2 = [] := by
  refine ⟨rfl, ?_, ?_, ?_⟩ <;> decide

/-- C5 amended: from a `Faulted` state (a non-empty tracked code), the
machine transitions to `Clear` exactly when the reported fault number
parses to 0: the warning is cleared, the tracked code and message are
reset to null, and the hold-flag drops.  When the fault number is absent
(no candidate field parses to a number), `applyErrorState` leaves the
state entirely unchanged and emits nothing. -/
theorem faulted_clears_only_on_zero (s : DeviceState) (flat : List (String × JSVal))
    (hf : s.lastErrorCode.getD "" ≠ "") :
    (getErrorNumber flat = some 0 →
      (applyErrorState s flat).1.lastErrorCode = none ∧
      (applyErrorState s flat).1.lastErrorMessage = none ∧
      (applyErrorState s flat).1.pelletsHoldAutoReset = false ∧
      Event.unwarn ∈ (applyErrorState s flat).2) ∧
    (getErrorNumber flat = none → applyErrorState s flat = (s, [])) := by
  constructor
  · intro h0
    simp only [applyErrorState, h0, if_true]
    have hcode : ((setCapabilityValueIfChanged
        ((setCapabilityValueIfChanged { s with pelletsHoldAutoReset := false }
          "stove_error_state" (.bool false)).1)
        "stove_error_code" (.str "")).1).lastErrorCode = s.lastErrorCode := by
      simp
    rw [if_pos (by rw [hcode]; exact hf)]
    refine ⟨rfl, rfl, ?_, by simp⟩
    simp
  · intro hn
    simp [applyErrorState, hn]

theorem faulted_clears_only_on_zero_witness :
    faultedState.lastErrorCode.getD "" ≠ "" ∧
    ((getErrorNumber [("error.nr", .num (.fin 0))] = some 0 →
      (applyErrorState faultedState [("error.nr", .num (.fin 0))]).1.lastErrorCode = none ∧
      (applyErrorState faultedState [("error.nr", .num (.fin 0))]).1.lastErrorMessage = none ∧
      (applyErrorState faultedState [("error.nr", .num (.fin 0))]).1.pelletsHoldAutoReset = false ∧
      Event.unwarn ∈ (applyErrorState faultedState [("error.nr", .num (.fin 0))]).2) ∧
    (getErrorNumber [("error.nr", .num (.fin 0))] = none →
      applyErrorState faultedState [("error.nr", .num (.fin 0))] = (faultedState, []))) :=
  ⟨by decide, faulted_clears_only_on_zero faultedState [("error.nr", .num (.fin 0))] (by decide)⟩

/-- A device state at zero remaining with auto-reset armed and the
consumption counter baselined at 10 kg. -/
def zeroResetState : DeviceState :=
  { exState with
    pelletsRemainingKg := some 0
    storeRemaining := some 0
    lastConsumptionKg := some 10
    storeConsumption := some 10
    settingsPelletsKg := .num (.fin 0)
    pelletsAutoResetMode := .reset15
    caps := [("measure_stove_pellets", .num (.fin 0)), ("stove_pellets_actual", .num (.fin 0))] }

unseal Rat.add Rat.sub Rat.mul Rat.inv in
/-- C2 counterexample: with remaining = 0, auto-reset mode `reset15` and
the hold-flag clear, a cumulative report EQUAL to the stored
`lastConsumptionKg` (10 = 10, delta floored at 0) snaps remaining from 0
to 15 — refuting "a report ≤ lastConsumptionKg never changes
remainingKg". -/
theorem equal_report_autoreset_counterexample :
    zeroResetState.lastConsumptionKg = some 10 ∧
    zeroResetState.pelletsRemainingKg = some 0 ∧
    (updatePelletsFromConsumption zeroResetState (.fin 10)).1.pelletsRemainingKg = some 15 := by
  refine ⟨rfl, rfl, ?_⟩
  decide

unseal Rat.add Rat.sub Rat.mul Rat.inv in
/-- C2 amended: once `lastConsumptionKg` is baselined, a cumulative
report less than or equal to it leaves `remainingKg` unchanged (the
delta is floored at 0), provided the current remaining value is a whole
number within `[0, maxKg]` (so that re-clamping is the identity) and it
is not the corner where remaining is exactly 0 with an auto-reset mode
configured and the hold-flag clear (in that corner the zero-delta update
still snaps remaining to the refill value). -/
theorem equal_or_decreasing_report_preserves_remaining (s : DeviceState) (c l : ℚ) (k : ℕ)
    (hlast : s.lastConsumptionKg = some l)
    (hc : c ≤ l)
    (hrem : s.pelletsRemainingKg = some ((k : ℚ)))
    (hk : (k : ℚ) ≤ s.pelletsMaxKg)
    (hnosnap : ¬((k : ℚ) = 0 ∧ getPelletsAutoResetValue s.pelletsAutoResetMode ≠ none ∧
        s.pelletsHoldAutoReset = false)) :
    (updatePelletsFromConsumption s (.fin c)).1.pelletsRemainingKg = some ((k : ℚ)) := by
  have haux : (if (some ((k : ℚ)) : Option ℚ) = none then initPelletsState s else (s, []))
      = (s, []) := by
    simp
  have hdelta : (if c - l < 0 then (0 : ℚ) else c - l) = 0 := by
    rcases lt_or_ge (c - l) 0 with h | h
    · rw [if_pos h]
    · rw [if_neg (not_lt.mpr h)]
      linarith
  have hclamp : clampPelletsValue s.pelletsMaxKg (.fin ((k : ℚ) - 0)) = (k : ℚ) := by
    rw [sub_zero]
    exact clamp_natCast _ _ hk
  simp only [updatePelletsFromConsumption, haux, hlast, hrem, hdelta, Option.getD_some, hclamp]
  by_cases hk0 : ((k : ℚ)) = 0
  · have harm : (match getPelletsAutoResetValue s.pelletsAutoResetMode,
        s.pelletsHoldAutoReset with
      | some resetValue, false => resetValue
      | _, _ => ((k : ℚ))) = ((k : ℚ)) := by
      rcases hm : getPelletsAutoResetValue s.pelletsAutoResetMode with _ | rv
      · rfl
      · cases hh : s.pelletsHoldAutoReset with
        | true => rfl
        | false => exact absurd ⟨hk0, by rw [hm]; simp, hh⟩ hnosnap
    rw [if_pos hk0, harm, spr_remaining]
    show some (clampPelletsValue s.pelletsMaxKg (.fin ((k : ℚ)))) = some ((k : ℚ))
    rw [clamp_natCast _ _ hk]
  · rw [if_neg hk0, spr_remaining]
    show some (clampPelletsValue s.pelletsMaxKg (.fin ((k : ℚ)))) = some ((k : ℚ))
    rw [clamp_natCast _ _ hk]

unseal Rat.add Rat.sub Rat.mul Rat.inv in
theorem equal_or_decreasing_report_preserves_remaining_witness :
    (exState.lastConsumptionKg = some 100 ∧ (99 : ℚ) ≤ 100 ∧
      exState.pelletsRemainingKg = some (((15 : ℕ) : ℚ)) ∧
      (((15 : ℕ) : ℚ)) ≤ exState.pelletsMaxKg) ∧
    (updatePelletsFromConsumption exState (.fin 99)).1.pelletsRemainingKg
      = some (((15 : ℕ) : ℚ)) :=
  ⟨⟨by decide, by norm_num, by norm_num [exState], by norm_num [exState]⟩,
   equal_or_decreasing_report_preserves_remaining exState 99 100 15 (by decide) (by norm_num)
     (by norm_num [exState]) (by norm_num [exState]) (by norm_num [exState])⟩

/-- A device state with a 10 kg maximum, 5 kg remaining, auto-reset mode
`reset15`, and the consumption counter baselined at 0. -/
def lowMaxState : DeviceState :=
  { exState with
    pelletsMaxKg := 10
    settingsMaxKg := .num (.fin 10)
    pelletsRemainingKg := some 5
    storeRemaining := some 5
    lastConsumptionKg := some 0
    storeConsumption := some 0
    settingsPelletsKg := .num (.fin 5)
    pelletsAutoResetMode := .reset15
    caps := [("measure_stove_pellets", .num (.fin 5)), ("stove_pellets_actual", .num (.fin 5))] }

unseal Rat.add Rat.sub Rat.mul Rat.inv in
/-- C4 counterexample: with `maxKg` = 10, auto-reset mode `reset15`, no
hold-flag, and a report that clamps remaining to exactly 0, remaining
becomes 10 — not 15 — because `setPelletsRemaining` re-clamps the refill
value to `[0, maxKg]`.  This refutes "remaining becomes 15". -/
theorem autoreset_refill_capped_counterexample :
    lowMaxState.pelletsAutoResetMode = .reset15 ∧
    lowMaxState.pelletsHoldAutoReset = false ∧
    clampPelletsValue lowMaxState.pelletsMaxKg
      (.fin (lowMaxState.pelletsRemainingKg.getD 0 - (5 - 0))) = 0 ∧
    (updatePelletsFromConsumption lowMaxState (.fin 5)).1.pelletsRemainingKg = some 10 ∧
    ((10 : ℚ) ≠ 15) := by
  refine ⟨rfl, rfl, by decide, ?_, by norm_num⟩
  decide

unseal Rat.add Rat.sub Rat.mul Rat.inv in
/-- C4 amended: whenever a consumption-report update clamps remaining to
exactly 0 and an auto-reset mode is configured with the hold-flag clear,
remaining becomes the refill value RE-CLAMPED to `[0, maxKg]` — that is,
`min(15, maxKg)` for `reset15` and `min(30, maxKg)` for `reset30`, which
equals 15 (resp. 30) exactly when `maxKg` is at least that large; with
the hold-flag set, remaining stays at 0. -/
theorem autoreset_snaps_to_clamped_refill (s : DeviceState) (c l r : ℚ)
    (hrem : s.pelletsRemainingKg = some r)
    (hlast : s.lastConsumptionKg = some l)
    (hM : 0 ≤ s.pelletsMaxKg)
    (hzero : clampPelletsValue s.pelletsMaxKg
        (.fin (r - (if c - l < 0 then 0 else c - l))) = 0) :
    (s.pelletsAutoResetMode = .reset15 → s.pelletsHoldAutoReset = false →
      (updatePelletsFromConsumption s (.fin c)).1.pelletsRemainingKg
        = some (clampPelletsValue s.pelletsMaxKg (.fin 15))) ∧
    (s.pelletsAutoResetMode = .reset30 → s.pelletsHoldAutoReset = false →
      (updatePelletsFromConsumption s (.fin c)).1.pelletsRemainingKg
        = some (clampPelletsValue s.pelletsMaxKg (.fin 30))) ∧
    (s.pelletsHoldAutoReset = true →
      (updatePelletsFromConsumption s (.fin c)).1.pelletsRemainingKg = some 0) := by
  have haux : (if (some r : Option ℚ) = none then initPelletsState s else (s, []))
      = (s, []) := by
    simp
  refine ⟨?_, ?_, ?_⟩
  · intro hmode hhold
    simp only [updatePelletsFromConsumption, hrem, haux, hlast, Option.getD_some, hzero,
      hmode, hhold, getPelletsAutoResetValue, if_true, spr_remaining]
  · intro hmode hhold
    simp only [updatePelletsFromConsumption, hrem, haux, hlast, Option.getD_some, hzero,
      hmode, hhold, getPelletsAutoResetValue, if_true, spr_remaining]
  · intro hhold
    simp only [updatePelletsFromConsumption, hrem, haux, hlast, Option.getD_some, hzero,
      hhold, if_true, spr_remaining]
    cases hmode : getPelletsAutoResetValue s.pelletsAutoResetMode with
    | none =>
      show some (clampPelletsValue s.pelletsMaxKg (.fin 0)) = some 0
      rw [clamp_zero _ hM]
    | some rv =>
      show some (clampPelletsValue s.pelletsMaxKg (.fin 0)) = some 0
      rw [clamp_zero _ hM]

unseal Rat.add Rat.sub Rat.mul Rat.inv in
theorem autoreset_snaps_to_clamped_refill_witness :
    (lowMaxState.pelletsRemainingKg = some 5 ∧ lowMaxState.lastConsumptionKg = some 0 ∧
      (0 : ℚ) ≤ lowMaxState.pelletsMaxKg ∧
      clampPelletsValue lowMaxState.pelletsMaxKg
        (.fin (5 - (if (5 : ℚ) - 0 < 0 then 0 else 5 - 0))) = 0) ∧
    ((lowMaxState.pelletsAutoResetMode = .reset15 → lowMaxState.pelletsHoldAutoReset = false →
      (updatePelletsFromConsumption lowMaxState (.fin 5)).1.pelletsRemainingKg
        = some (clampPelletsValue lowMaxState.pelletsMaxKg (.fin 15))) ∧
    (lowMaxState.pelletsAutoResetMode = .reset30 → lowMaxState.pelletsHoldAutoReset = false →
      (updatePelletsFromConsumption lowMaxState (.fin 5)).1.pelletsRemainingKg
        = some (clampPelletsValue lowMaxState.pelletsMaxKg (.fin 30))) ∧
    (lowMaxState.pelletsHoldAutoReset = true →
      (updatePelletsFromConsumption lowMaxState (.fin 5)).1.pelletsRemainingKg = some 0)) :=
  ⟨⟨rfl, rfl, by norm_num [lowMaxState, exState], by decide⟩,
   autoreset_snaps_to_clamped_refill lowMaxState 5 0 5 rfl rfl
     (by norm_num [lowMaxState, exState]) (by decide)⟩

unseal Rat.add Rat.sub Rat.mul Rat.inv in
/-- C6: a status report with fault number 21 or 26 forces remaining
pellets to 0 and sets the inventory hold-flag; while the hold-flag is
set with remaining at 0, any consumption report leaves remaining at 0
and the flag set — auto-reset is suppressed regardless of the configured
mode (including refill-to-30) — and a report with fault number 0 (fault
cleared) drops the hold-flag again. -/
theorem hopper_fault_forces_zero_and_suppresses_autoreset (s : DeviceState)
    (flat : List (String × JSVal)) (c : JSNum)
    (hM : 0 ≤ s.pelletsMaxKg)
    (hn : getErrorNumber flat = some 21 ∨ getErrorNumber flat = some 26) :
    ((applyErrorState s flat).1.pelletsHoldAutoReset = true ∧
     (applyErrorState s flat).1.pelletsRemainingKg = some 0) ∧
    (∀ s' : DeviceState, s'.pelletsHoldAutoReset = true → s'.pelletsRemainingKg = some 0 →
      0 ≤ s'.pelletsMaxKg →
      (updatePelletsFromConsumption s' c).1.pelletsRemainingKg = some 0 ∧
      (updatePelletsFromConsumption s' c).1.pelletsHoldAutoReset = true) ∧
    (∀ (s2 : DeviceState) (flat2 : List (String × JSVal)), getErrorNumber flat2 = some 0 →
      (applyErrorState s2 flat2).1.pelletsHoldAutoReset = false) := by
  refine ⟨?_, ?_, ?_⟩
  · have hz : ∀ n : ℚ, getErrorNumber flat = some n → n = 21 ∨ n = 26 →
        (applyErrorState s flat).1.pelletsHoldAutoReset = true ∧
        (applyErrorState s flat).1.pelletsRemainingKg = some 0 := by
      intro n hgn h2126
      have hn0 : ¬(n = 0) := by
        rcases h2126 with h | h <;> rw [h] <;> norm_num
      simp only [applyErrorState, hgn]
      rw [if_neg hn0]
      rw [if_pos h2126]
      constructor
      · split
        · simp
        · split
          · simp
          · simp
      · have hr := spr_remaining { s with pelletsHoldAutoReset := true } 0 true
        have hr0 : clampPelletsValue s.pelletsMaxKg (.fin 0) = 0 := clamp_zero _ hM
        split
        · simp only [scv_pelletsRemainingKg]
          rw [hr]
          show some (clampPelletsValue s.pelletsMaxKg (.fin 0)) = some 0
          rw [hr0]
        · split
          · simp only [scv_pelletsRemainingKg]
            rw [hr]
            show some (clampPelletsValue s.pelletsMaxKg (.fin 0)) = some 0
            rw [hr0]
          · simp only [scv_pelletsRemainingKg]
            rw [hr]
            show some (clampPelletsValue s.pelletsMaxKg (.fin 0)) = some 0
            rw [hr0]
    rcases hn with h | h
    · exact hz 21 h (Or.inl rfl)
    · exact hz 26 h (Or.inr rfl)
  · intro s' hhold hrem hM'
    cases c with
    | fin q =>
      have haux : (if (some (0 : ℚ) : Option ℚ) = none then initPelletsState s' else (s', []))
          = (s', []) := by
        simp
      cases hlast : s'.lastConsumptionKg with
      | none =>
        simp only [updatePelletsFromConsumption, hrem, haux, hlast]
        constructor
        · simp [hrem]
        · simp [hhold]
      | some l =>
        simp only [updatePelletsFromConsumption, hrem, haux, hlast, Option.getD_some]
        have hzero : clampPelletsValue s'.pelletsMaxKg
            (.fin (0 - (if q - l < 0 then 0 else q - l))) = 0 := by
          apply clamp_nonpos
          · rcases lt_or_ge (q - l) 0 with h | h
            · rw [if_pos h]
              norm_num
            · rw [if_neg (not_lt.mpr h)]
              linarith
          · exact hM'
        simp only [hzero, hhold, if_true]
        cases hmode : getPelletsAutoResetValue s'.pelletsAutoResetMode with
        | none =>
          simp only [hmode, spr_remaining]
          constructor
          · show some (clampPelletsValue s'.pelletsMaxKg (.fin 0)) = some 0
            rw [clamp_zero _ hM']
          · simp [hhold]
        | some rv =>
          simp only [hmode, spr_remaining]
          constructor
          · show some (clampPelletsValue s'.pelletsMaxKg (.fin 0)) = some 0
            rw [clamp_zero _ hM']
          · simp [hhold]
    | nan => exact ⟨hrem, hhold⟩
    | inf b => exact ⟨hrem, hhold⟩
  · intro s2 flat2 h0
    simp only [applyErrorState, h0, if_true]
    split
    · simp
    · simp

/-- The published pellet capability (when present) is either the initial
null or the number last published, which always equals the stored
remaining estimate. -/
def capSyncP (s : DeviceState) (id : String) : Prop :=
  ∀ v, s.caps.lookup id = some v →
    v = .null ∨ ∃ rr, s.pelletsRemainingKg = some rr ∧ v = .num (.fin rr)

/-- The pellet-inventory invariant: a non-negative maximum, the stored
remaining estimate within `[0, maxKg]`, and both published pellet
capabilities in sync with the stored estimate. -/
def PelletsInv (s : DeviceState) : Prop :=
  0 ≤ s.pelletsMaxKg ∧
  (∀ rr, s.pelletsRemainingKg = some rr → 0 ≤ rr ∧ rr ≤ s.pelletsMaxKg) ∧
  capSyncP s "measure_stove_pellets" ∧ capSyncP s "stove_pellets_actual"

theorem parsePelletsMaxKg_nonneg (v : JSVal) : 0 ≤ parsePelletsMaxKg v := by
  unfold parsePelletsMaxKg
  cases coerceNumber v with
  | none => norm_num
  | some q => exact le_max_left _ _

theorem inv_congr (s t : DeviceState) (hc : t.caps = s.caps)
    (hr : t.pelletsRemainingKg = s.pelletsRemainingKg) (hM : t.pelletsMaxKg = s.pelletsMaxKg)
    (h : PelletsInv s) : PelletsInv t := by
  obtain ⟨h1, h2, h3, h4⟩ := h
  refine ⟨hM ▸ h1, ?_, ?_, ?_⟩
  · intro rr hrr
    rw [hM]
    exact h2 rr (hr ▸ hrr)
  · intro v hv
    rcases h3 v (hc ▸ hv) with h | ⟨rr, hrr, hveq⟩
    · exact Or.inl h
    · exact Or.inr ⟨rr, hr ▸ hrr, hveq⟩
  · intro v hv
    rcases h4 v (hc ▸ hv) with h | ⟨rr, hrr, hveq⟩
    · exact Or.inl h
    · exact Or.inr ⟨rr, hr ▸ hrr, hveq⟩

theorem scv_inv_other (s : DeviceState) (id : String) (v : JSVal) (h : PelletsInv s)
    (h1 : id ≠ "measure_stove_pellets") (h2 : id ≠ "stove_pellets_actual") :
    PelletsInv (setCapabilityValueIfChanged s id v).1 := by
  obtain ⟨hM, hr, h3, h4⟩ := h
  refine ⟨by simp [hM], ?_, ?_, ?_⟩
  · intro rr hrr
    simp only [scv_pelletsRemainingKg] at hrr
    simp only [scv_pelletsMaxKg]
    exact hr rr hrr
  · intro w hw
    rw [scv_caps_ne _ _ _ _ (Ne.symm (Ne.symm h1).symm)] at hw
    rcases h3 w hw with hh | ⟨rr, hrr, hveq⟩
    · exact Or.inl hh
    · exact Or.inr ⟨rr, by simp [hrr], hveq⟩
  · intro w hw
    rw [scv_caps_ne _ _ _ _ (Ne.symm (Ne.symm h2).symm)] at hw
    rcases h4 w hw with hh | ⟨rr, hrr, hveq⟩
    · exact Or.inl hh
    · exact Or.inr ⟨rr, by simp [hrr], hveq⟩

theorem spr_caps_pellets (s : DeviceState) (v : ℚ) (u : Bool) (id : String)
    (hid : id = "measure_stove_pellets" ∨ id = "stove_pellets_actual") :
    ((setPelletsRemaining s v u).1.caps.lookup id = s.caps.lookup id ∧
      s.pelletsRemainingKg = some (clampPelletsValue s.pelletsMaxKg (.fin v))) ∨
    (setPelletsRemaining s v u).1.caps.lookup id = none ∨
    (setPelletsRemaining s v u).1.caps.lookup id
      = some (.num (.fin (clampPelletsValue s.pelletsMaxKg (.fin v)))) := by
  by_cases hcase : s.pelletsRemainingKg = some (clampPelletsValue s.pelletsMaxKg (.fin v))
  · left
    refine ⟨?_, hcase⟩
    simp only [setPelletsRemaining, if_pos hcase]
    cases u
    · simp
    · simp [ups_caps]
  · right
    simp only [setPelletsRemaining, if_neg hcase]
    rcases hid with hid | hid
    · subst hid
      cases u
      · simp only [Bool.false_eq_true, if_false]
        rw [scv_caps_ne _ _ _ _ (by decide : ("measure_stove_pellets":String) ≠ "stove_pellets_actual")]
        exact scv_settles _ _ _
      · simp only [if_true]
        rw [ups_caps,
          scv_caps_ne _ _ _ _ (by decide : ("measure_stove_pellets":String) ≠ "stove_pellets_actual")]
        exact scv_settles _ _ _
    · subst hid
      cases u
      · simp only [Bool.false_eq_true, if_false]
        exact scv_settles _ _ _
      · simp only [if_true]
        rw [ups_caps]
        exact scv_settles _ _ _

theorem spr_inv (s : DeviceState) (v : ℚ) (u : Bool)
    (hM : 0 ≤ s.pelletsMaxKg)
    (hm : capSyncP s "measure_stove_pellets") (ha : capSyncP s "stove_pellets_actual") :
    PelletsInv (setPelletsRemaining s v u).1 := by
  have hn0 : 0 ≤ clampPelletsValue s.pelletsMaxKg (.fin v) := clamp_nonneg _ _ hM
  have hnM : clampPelletsValue s.pelletsMaxKg (.fin v) ≤ s.pelletsMaxKg := clamp_le_max _ _
  have hrem := spr_remaining s v u
  have sync : ∀ id, id = "measure_stove_pellets" ∨ id = "stove_pellets_actual" →
      capSyncP s id → capSyncP (setPelletsRemaining s v u).1 id := by
    intro id hid hpre w hw
    rcases spr_caps_pellets s v u id hid with ⟨heq, hc⟩ | hnone | hval
    · rw [heq] at hw
      rcases hpre w hw with hh | ⟨rr, hrr, hveq⟩
      · exact Or.inl hh
      · refine Or.inr ⟨rr, ?_, hveq⟩
        rw [hrem, ← hc, hrr]
    · rw [hnone] at hw
      cases hw
    · rw [hval] at hw
      cases hw
      exact Or.inr ⟨_, hrem, rfl⟩
  refine ⟨by simp [hM], ?_, ?_, ?_⟩
  · intro rr hrr
    rw [hrem] at hrr
    cases hrr
    simp only [spr_pelletsMaxKg]
    exact ⟨hn0, hnM⟩
  · exact sync _ (Or.inl rfl) hm
  · exact sync _ (Or.inr rfl) ha

theorem capSync_congr (s t : DeviceState) (hc : t.caps = s.caps)
    (hr : t.pelletsRemainingKg = s.pelletsRemainingKg) (id : String)
    (h : capSyncP s id) : capSyncP t id := by
  intro v hv
  rcases h v (hc ▸ hv) with hh | ⟨rr, hrr, hveq⟩
  · exact Or.inl hh
  · exact Or.inr ⟨rr, hr ▸ hrr, hveq⟩

theorem publish_pair_inv (t : DeviceState) (r : ℚ)
    (hr : t.pelletsRemainingKg = some r) (h0 : 0 ≤ r) (hrM : r ≤ t.pelletsMaxKg)
    (hM : 0 ≤ t.pelletsMaxKg) :
    PelletsInv (setCapabilityValueIfChanged
      ((setCapabilityValueIfChanged t "measure_stove_pellets" (.num (.fin r))).1)
      "stove_pellets_actual" (.num (.fin r))).1 := by
  refine ⟨by simp [hM], ?_, ?_, ?_⟩
  · intro rr hrr
    simp only [scv_pelletsRemainingKg] at hrr
    rw [hr] at hrr
    cases hrr
    simp only [scv_pelletsMaxKg]
    exact ⟨h0, hrM⟩
  · intro w hw
    rw [scv_caps_ne _ _ _ _
      (by decide : ("measure_stove_pellets" : String) ≠ "stove_pellets_actual")] at hw
    rcases scv_settles t "measure_stove_pellets" (.num (.fin r)) with hs | hs
    · rw [hs] at hw
      cases hw
    · rw [hs] at hw
      cases hw
      exact Or.inr ⟨r, by simp [hr], rfl⟩
  · intro w hw
    rcases scv_settles _ "stove_pellets_actual" (.num (.fin r)) with hs | hs
    · rw [hs] at hw
      cases hw
    · rw [hs] at hw
      cases hw
      exact Or.inr ⟨r, by simp [hr], rfl⟩

theorem init_inv (s : DeviceState) : PelletsInv (initPelletsState s).1 := by
  have hM' : 0 ≤ parsePelletsMaxKg s.settingsMaxKg := parsePelletsMaxKg_nonneg _
  simp only [initPelletsState]
  cases hst : s.storeRemaining with
  | some stored =>
    cases hsc : s.storeConsumption <;>
      exact publish_pair_inv _ _ rfl (clamp_nonneg _ _ hM') (clamp_le_max _ _) hM'
  | none =>
    cases hcf : coerceNumber s.settingsPelletsKg with
    | some configured =>
      cases hsc : s.storeConsumption <;>
        exact publish_pair_inv _ _ rfl (clamp_nonneg _ _ hM') (clamp_le_max _ _) hM'
    | none =>
      cases hsc : s.storeConsumption <;>
        exact publish_pair_inv _ _ rfl (clamp_nonneg _ _ hM') (clamp_le_max _ _) hM'

theorem upc_inv (s : DeviceState) (c : JSNum) (h : PelletsInv s) :
    PelletsInv (updatePelletsFromConsumption s c).1 := by
  cases c with
  | nan => exact h
  | inf b => exact h
  | fin q =>
    by_cases hnone : s.pelletsRemainingKg = none
    · have h0 : PelletsInv (initPelletsState s).1 := init_inv s
      obtain ⟨hM0, hb0, hm0, ha0⟩ := h0
      simp only [updatePelletsFromConsumption, if_pos hnone]
      cases hlast : (initPelletsState s).1.lastConsumptionKg with
      | none =>
        cases hrem1 : (initPelletsState s).1.pelletsRemainingKg with
        | none =>
          dsimp only
          refine inv_congr ((initPelletsState s).1) _ rfl ?_ rfl (init_inv s)
          simp [hrem1]
        | some r =>
          dsimp only
          refine publish_pair_inv _ r (by simp) ?_ ?_ (by simpa using hM0)
          · exact (hb0 r hrem1).1
          · simpa using (hb0 r hrem1).2
      | some l =>
        dsimp only
        apply spr_inv
        · simpa using hM0
        · exact capSync_congr _ _ rfl rfl _ hm0
        · exact capSync_congr _ _ rfl rfl _ ha0
    · obtain ⟨hM0, hb0, hm0, ha0⟩ := h
      simp only [updatePelletsFromConsumption, if_neg hnone]
      cases hlast : s.lastConsumptionKg with
      | none =>
        cases hrem1 : s.pelletsRemainingKg with
        | none => exact absurd hrem1 hnone
        | some r =>
          dsimp only
          refine publish_pair_inv _ r (by simp) ?_ ?_ (by simpa using hM0)
          · exact (hb0 r hrem1).1
          · simpa using (hb0 r hrem1).2
      | some l =>
        dsimp only
        apply spr_inv
        · simpa using hM0
        · exact capSync_congr _ _ rfl rfl _ hm0
        · exact capSync_congr _ _ rfl rfl _ ha0

theorem override_inv (s : DeviceState) (v : JSVal) (h : PelletsInv s) :
    PelletsInv (match handlePelletsOverride s v with
      | .ok r => r
      | .error _ => (s, [])).1 := by
  obtain ⟨hM0, hb0, hm0, ha0⟩ := h
  cases hv : coerceNumber v with
  | none =>
    simp only [handlePelletsOverride, hv]
    exact ⟨hM0, hb0, hm0, ha0⟩
  | some q =>
    simp only [handlePelletsOverride, hv]
    apply spr_inv
    · simpa using hM0
    · exact capSync_congr _ _ rfl rfl _ hm0
    · exact capSync_congr _ _ rfl rfl _ ha0

theorem setMax_inv (s : DeviceState) (v : JSVal) (h : PelletsInv s) :
    PelletsInv (handleMaxKgSetting s v).1 := by
  obtain ⟨hM0, hb0, hm0, ha0⟩ := h
  have hM' : 0 ≤ parsePelletsMaxKg v := parsePelletsMaxKg_nonneg v
  simp only [handleMaxKgSetting]
  cases hr : s.pelletsRemainingKg with
  | none =>
    dsimp only
    refine ⟨hM', ?_, ?_, ?_⟩
    · intro rr hrr
      simp at hrr
    · exact capSync_congr s _ (by rfl) (by exact hr.symm) _ hm0
    · exact capSync_congr s _ (by rfl) (by exact hr.symm) _ ha0
  | some r =>
    dsimp only
    apply spr_inv
    · exact hM'
    · exact capSync_congr s _ (by rfl) (by exact hr.symm) _ hm0
    · exact capSync_congr s _ (by rfl) (by exact hr.symm) _ ha0

theorem aes_inv (s : DeviceState) (flat : List (String × JSVal)) (h : PelletsInv s) :
    PelletsInv (applyErrorState s flat).1 := by
  cases hg : getErrorNumber flat with
  | none => simpa [applyErrorState, hg] using h
  | some n =>
    obtain ⟨hM0, hb0, hm0, ha0⟩ := h
    have hbase : PelletsInv ({ s with pelletsHoldAutoReset := false } : DeviceState) := by
      refine inv_congr _ _ rfl rfl rfl ⟨hM0, hb0, hm0, ha0⟩
    have hbaseT : PelletsInv ({ s with pelletsHoldAutoReset := true } : DeviceState) := by
      refine inv_congr _ _ rfl rfl rfl ⟨hM0, hb0, hm0, ha0⟩
    simp only [applyErrorState, hg]
    by_cases h0 : n = 0
    · rw [if_pos h0]
      have h2 : PelletsInv (setCapabilityValueIfChanged
          ((setCapabilityValueIfChanged { s with pelletsHoldAutoReset := false }
            "stove_error_state" (.bool false)).1) "stove_error_code" (.str "")).1 := by
        apply scv_inv_other _ _ _ _ (by decide) (by decide)
        exact scv_inv_other _ _ _ hbase (by decide) (by decide)
      split
      · exact inv_congr _ _ rfl rfl rfl h2
      · exact h2
    · rw [if_neg h0]
      by_cases h21 : n = 21 ∨ n = 26
      · rw [if_pos h21]
        have hr0 : PelletsInv (setPelletsRemaining
            { s with pelletsHoldAutoReset := true } 0 true).1 := by
          apply spr_inv
          · simpa using hM0
          · exact capSync_congr _ _ rfl rfl _ hm0
          · exact capSync_congr _ _ rfl rfl _ ha0
        have h2 : PelletsInv (setCapabilityValueIfChanged
            ((setCapabilityValueIfChanged (setPelletsRemaining
              { s with pelletsHoldAutoReset := true } 0 true).1
              "stove_error_code" (.str (formatErrorCode n))).1)
            "stove_error_state" (.bool true)).1 := by
          apply scv_inv_other _ _ _ _ (by decide) (by decide)
          exact scv_inv_other _ _ _ hr0 (by decide) (by decide)
        split
        · exact inv_congr _ _ rfl rfl rfl h2
        · split
          · exact inv_congr _ _ rfl rfl rfl h2
          · exact h2
      · rw [if_neg h21]
        have h2 : PelletsInv (setCapabilityValueIfChanged
            ((setCapabilityValueIfChanged { s with pelletsHoldAutoReset := false }
              "stove_error_code" (.str (formatErrorCode n))).1)
            "stove_error_state" (.bool true)).1 := by
          apply scv_inv_other _ _ _ _ (by decide) (by decide)
          exact scv_inv_other _ _ _ hbase (by decide) (by decide)
        split
        · exact inv_congr _ _ rfl rfl rfl h2
        · split
          · exact inv_congr _ _ rfl rfl rfl h2
          · exact h2

theorem pelletsStep_inv (s : DeviceState) (op : PelletsOp) (h : PelletsInv s) :
    PelletsInv (pelletsStep s op).1 := by
  cases op with
  | consumption c => exact upc_inv s c h
  | override v => exact override_inv s v h
  | setMax v => exact setMax_inv s v h
  | errorReport flat => exact aes_inv s flat h

/-- C1: for every sequence of pellet-inventory operations — consumption
reports, manual overrides, `maxKg` setting changes, and fault-driven
forcing to zero via the error state machine — both the stored remaining
estimate and the values published to the two pellet capabilities stay in
`[0, maxKg]` (capabilities that have never been published hold null). -/
theorem pellets_remaining_always_clamped (s : DeviceState) (ops : List PelletsOp)
    (h : PelletsInv s) :
    (∀ rr, (pelletsRun s ops).pelletsRemainingKg = some rr →
      0 ≤ rr ∧ rr ≤ (pelletsRun s ops).pelletsMaxKg) ∧
    (∀ id, (id = "measure_stove_pellets" ∨ id = "stove_pellets_actual") →
      ∀ w, (pelletsRun s ops).caps.lookup id = some (.num (.fin w)) →
        0 ≤ w ∧ w ≤ (pelletsRun s ops).pelletsMaxKg) := by
  have hrun : PelletsInv (pelletsRun s ops) := by
    induction ops generalizing s with
    | nil => exact h
    | cons op rest ih => exact ih _ (pelletsStep_inv s op h)
  obtain ⟨hM, hb, hm, ha⟩ := hrun
  refine ⟨hb, ?_⟩
  intro id hid w hw
  have hsync : capSyncP (pelletsRun s ops) id := by
    rcases hid with hid | hid
    · exact hid ▸ hm
    · exact hid ▸ ha
  rcases hsync _ hw with hh | ⟨rr, hrr, hveq⟩
  · cases hh
  · have hwr : w = rr := by
      injection hveq with h1
      injection h1
    rw [hwr]
    exact hb rr hrr

theorem exState_inv : PelletsInv exState := by
  refine ⟨by norm_num [exState], ?_, ?_, ?_⟩
  · intro rr hrr
    have h15 : exState.pelletsRemainingKg = some 15 := by decide
    rw [h15] at hrr
    cases hrr
    constructor <;> norm_num [exState]
  · intro v hv
    have hlook : exState.caps.lookup "measure_stove_pellets" = some (.num (.fin 15)) := by decide
    rw [hlook] at hv
    cases hv
    exact Or.inr ⟨15, by decide, rfl⟩
  · intro v hv
    have hlook : exState.caps.lookup "stove_pellets_actual" = some (.num (.fin 15)) := by decide
    rw [hlook] at hv
    cases hv
    exact Or.inr ⟨15, by decide, rfl⟩

theorem pellets_remaining_always_clamped_witness :
    PelletsInv exState ∧
    ((∀ rr, (pelletsRun exState [.consumption (.fin 103), .override (.num (.fin 20)),
        .setMax (.num (.fin 10)), .errorReport [("error.nr", .num (.fin 21))],
        .consumption (.fin 110)]).pelletsRemainingKg = some rr →
      0 ≤ rr ∧ rr ≤ (pelletsRun exState [.consumption (.fin 103), .override (.num (.fin 20)),
        .setMax (.num (.fin 10)), .errorReport [("error.nr", .num (.fin 21))],
        .consumption (.fin 110)]).pelletsMaxKg) ∧
    (∀ id, (id = "measure_stove_pellets" ∨ id = "stove_pellets_actual") →
      ∀ w, (pelletsRun exState [.consumption (.fin 103), .override (.num (.fin 20)),
        .setMax (.num (.fin 10)), .errorReport [("error.nr", .num (.fin 21))],
        .consumption (.fin 110)]).caps.lookup id = some (.num (.fin w)) →
        0 ≤ w ∧ w ≤ (pelletsRun exState [.consumption (.fin 103), .override (.num (.fin 20)),
          .setMax (.num (.fin 10)), .errorReport [("error.nr", .num (.fin 21))],
          .consumption (.fin 110)]).pelletsMaxKg)) :=
  ⟨exState_inv,
   pellets_remaining_always_clamped exState
     [.consumption (.fin 103), .override (.num (.fin 20)), .setMax (.num (.fin 10)),
      .errorReport [("error.nr", .num (.fin 21))], .consumption (.fin 110)] exState_inv⟩

unseal Rat.add Rat.sub Rat.mul Rat.inv in
theorem hopper_fault_forces_zero_and_suppresses_autoreset_witness :
    ((0 : ℚ) ≤ { exState with pelletsAutoResetMode := .reset30 : DeviceState }.pelletsMaxKg ∧
      getErrorNumber [("error.nr", .num (.fin 21))] = some 21) ∧
    (((applyErrorState { exState with pelletsAutoResetMode := .reset30 }
          [("error.nr", .num (.fin 21))]).1.pelletsHoldAutoReset = true ∧
      (applyErrorState { exState with pelletsAutoResetMode := .reset30 }
          [("error.nr", .num (.fin 21))]).1.pelletsRemainingKg = some 0) ∧
     (∀ s' : DeviceState, s'.pelletsHoldAutoReset = true → s'.pelletsRemainingKg = some 0 →
       0 ≤ s'.pelletsMaxKg →
       (updatePelletsFromConsumption s' (.fin 120)).1.pelletsRemainingKg = some 0 ∧
       (updatePelletsFromConsumption s' (.fin 120)).1.pelletsHoldAutoReset = true) ∧
     (∀ (s2 : DeviceState) (flat2 : List (String × JSVal)), getErrorNumber flat2 = some 0 →
       (applyErrorState s2 flat2).1.pelletsHoldAutoReset = false)) :=
  ⟨⟨by norm_num [exState], by decide⟩,
   hopper_fault_forces_zero_and_suppresses_autoreset { exState with pelletsAutoResetMode := .reset30 }
     [("error.nr", .num (.fin 21))] (.fin 120) (by norm_num [exState]) (Or.inl (by decide))⟩

/-- C10: JavaScript number coercion maps the empty string and every
whitespace-only string to 0 (`Number("")` is `0`, a finite value), so a
`consumption` field reported as such a string is treated as the
cumulative value 0 rather than dropped as non-numeric: the estimator
baselines `lastConsumptionKg` at 0 and the number-typed
`measure_stove_consumption` capability is written with 0. -/
theorem empty_string_consumption_zero (ws : String)
    (hws : jsTrimChars ws.toList = []) :
    coerceNumber (.str ws) = some 0 ∧
    (applyStatus cState10 [("consumption", .str ws)]).1.lastConsumptionKg = some 0 ∧
    Event.capWrite "measure_stove_consumption" (.num (.fin 0)) ∈
      (applyStatus cState10 [("consumption", .str ws)]).2 := by
  have hc : coerceNumber (JSVal.str ws) = some 0 := by
    simp only [coerceNumber, jsStringToNumber, hws]
  have hws' : jsTrimChars ws.data = [] := hws
  refine ⟨hc, ?_, ?_⟩ <;>
    simp [applyStatus, flattenStatus, flattenEntries, objInsert, flatGet,
      coerceBoolean, coerceNumber, jsStringToNumber, hws, hws',
      applyErrorState, getErrorNumber, parseErrorNumber,
      updateMetaSettings, normalizeMetaValue, nullishCoalesce,
      updatePelletsFromConsumption, setCapabilityValueIfChanged,
      getCapabilityValue, hasCapability, triggerCapabilityFlow,
      applyStatusLoop, STATE_TO_CAPABILITY, coerceValue, CAPABILITY_TYPES,
      cState10, exState, List.lookup]

theorem empty_string_consumption_zero_witness :
    jsTrimChars " \t ".toList = [] ∧
    (coerceNumber (.str " \t ") = some 0 ∧
     (applyStatus cState10 [("consumption", .str " \t ")]).1.lastConsumptionKg = some 0 ∧
     Event.capWrite "measure_stove_consumption" (.num (.fin 0)) ∈
       (applyStatus cState10 [("consumption", .str " \t ")]).2) :=
  ⟨by decide, empty_string_consumption_zero " \t " (by decide)⟩

unseal Rat.add Rat.sub Rat.mul Rat.inv in
/-- C3 counterexample: delivering the identical one-field document
`{consumption: 5}` twice in a row to an empty-hopper state with
refill-to-15 auto-reset armed is not idempotent: the first delivery
baselines the counter and changes nothing else, but the second delivery
sees a zero delta against an empty hopper, snaps remaining from 0 to 15,
and emits two capability writes and a flow trigger. -/
theorem second_application_counterexample :
    noisyEvents (applyStatus (applyStatus c3State c3Doc).1 c3Doc).2 =
      [.capWrite "measure_stove_pellets" (.num (.fin 15)),
       .capWrite "stove_pellets_actual" (.num (.fin 15)),
       .flowTrigger "stove_pellets_changed" [("pellets_kg", .num (.fin 15))]] := by
  have hflat : flattenStatus c3Doc = [("consumption", JSVal.num (JSNum.fin 5))] := by
    simp [flattenStatus, flattenEntries, objInsert, c3Doc]
  simp only [applyStatus, hflat]
  decide

/-! ### Settledness of a status document, for the idempotence analysis -/

@[simp] theorem scv_settingsMetaHw (s : DeviceState) (id : String) (v : JSVal) :
    (setCapabilityValueIfChanged s id v).1.settingsMetaHw = s.settingsMetaHw := by
  obtain ⟨c, hc⟩ := scv_shape s id v
  rw [hc]

@[simp] theorem scv_settingsMetaSw (s : DeviceState) (id : String) (v : JSVal) :
    (setCapabilityValueIfChanged s id v).1.settingsMetaSw = s.settingsMetaSw := by
  obtain ⟨c, hc⟩ := scv_shape s id v
  rw [hc]

@[simp] theorem scv_settingsMetaTyp (s : DeviceState) (id : String) (v : JSVal) :
    (setCapabilityValueIfChanged s id v).1.settingsMetaTyp = s.settingsMetaTyp := by
  obtain ⟨c, hc⟩ := scv_shape s id v
  rw [hc]

@[simp] theorem ups_settingsMetaHw (s : DeviceState) (v : ℚ) :
    (updatePelletsSetting s v).1.settingsMetaHw = s.settingsMetaHw := by
  obtain ⟨p, hp⟩ := ups_shape s v
  rw [hp]

@[simp] theorem ups_settingsMetaSw (s : DeviceState) (v : ℚ) :
    (updatePelletsSetting s v).1.settingsMetaSw = s.settingsMetaSw := by
  obtain ⟨p, hp⟩ := ups_shape s v
  rw [hp]

@[simp] theorem ups_settingsMetaTyp (s : DeviceState) (v : ℚ) :
    (updatePelletsSetting s v).1.settingsMetaTyp = s.settingsMetaTyp := by
  obtain ⟨p, hp⟩ := ups_shape s v
  rw [hp]

@[simp] theorem spr_settingsMetaHw (s : DeviceState) (v : ℚ) (u : Bool) :
    (setPelletsRemaining s v u).1.settingsMetaHw = s.settingsMetaHw := by
  simp only [setPelletsRemaining]
  split
  · split <;> simp
  · split <;> simp

@[simp] theorem spr_settingsMetaSw (s : DeviceState) (v : ℚ) (u : Bool) :
    (setPelletsRemaining s v u).1.settingsMetaSw = s.settingsMetaSw := by
  simp only [setPelletsRemaining]
  split
  · split <;> simp
  · split <;> simp

@[simp] theorem spr_settingsMetaTyp (s : DeviceState) (v : ℚ) (u : Bool) :
    (setPelletsRemaining s v u).1.settingsMetaTyp = s.settingsMetaTyp := by
  simp only [setPelletsRemaining]
  split
  · split <;> simp
  · split <;> simp

/-- The settings writes of `updatePelletsSetting` are not user-visible. -/
theorem ups_not_noisy (s : DeviceState) (v : ℚ) :
    noisyEvents (updatePelletsSetting s v).2 = [] := by
  simp only [updatePelletsSetting]
  cases h : coerceNumber s.settingsPelletsKg with
  | none => simp [noisyEvents, Event.isNoisy]
  | some cur =>
    dsimp only
    by_cases hn : |cur - v| < 1/100
    · rw [if_pos hn]
      rfl
    · rw [if_neg hn]
      simp [noisyEvents, Event.isNoisy]

/-- A capability already holding the target value (or absent entirely)
will not be rewritten. -/
def CapSettled (s : DeviceState) (id : String) (v : JSVal) : Prop :=
  s.caps.lookup id = none ∨ s.caps.lookup id = some v

/-- The error message `applyErrorState` derives for a fault number. -/
def errMessageOf (n : ℚ) : String :=
  formatErrorMessage (formatErrorCode n)
    (((ERROR_CODE_MAP n).map localize).filter
      (fun cause => !(jsTrimChars cause.toList).isEmpty))
    (localize "errors.unknown")

/-- The error state machine is settled on a flattened document: a second
run of `applyErrorState` finds every tracked field already at the value
it would write. -/
def ErrSettled (flat : List (String × JSVal)) (s : DeviceState) : Prop :=
  ∀ n, getErrorNumber flat = some n →
    if n = 0 then
      s.pelletsHoldAutoReset = false ∧ CapSettled s "stove_error_state" (.bool false) ∧
      CapSettled s "stove_error_code" (.str "") ∧ s.lastErrorCode.getD "" = ""
    else
      CapSettled s "stove_error_code" (.str (formatErrorCode n)) ∧
      CapSettled s "stove_error_state" (.bool true) ∧
      s.lastErrorCode = some (formatErrorCode n) ∧
      s.lastErrorMessage = some (errMessageOf n) ∧
      (if n = 21 ∨ n = 26 then
        s.pelletsHoldAutoReset = true ∧ s.pelletsRemainingKg = some 0
      else s.pelletsHoldAutoReset = false)

/-- The mirrored metadata settings are settled on a flattened document. -/
def MetaSettled (flat : List (String × JSVal)) (s : DeviceState) : Prop :=
  (∀ x, normalizeMetaValue (flatGet flat "meta.hw_version") = some x →
    jsValToString (nullishCoalesce s.settingsMetaHw (.str "")) = x) ∧
  (∀ x, normalizeMetaValue (flatGet flat "meta.sw_version") = some x →
    jsValToString (nullishCoalesce s.settingsMetaSw (.str "")) = x) ∧
  (∀ x, normalizeMetaValue (flatGet flat "meta.typ") = some x →
    jsValToString (nullishCoalesce s.settingsMetaTyp (.str "")) = x)

/-- The pellet estimator is settled on a flattened document: the counter
is baselined at the document's cumulative value, the stored remaining
estimate is a clamp fixpoint, and a zero remaining cannot be snapped
away by the auto-reset rule. -/
def ConsSettled (flat : List (String × JSVal)) (s : DeviceState) : Prop :=
  ∀ c, coerceNumber (flatGet flat "consumption") = some c →
    s.lastConsumptionKg = some c ∧ s.storeConsumption = some c ∧
    ∃ r, s.pelletsRemainingKg = some r ∧
      clampPelletsValue s.pelletsMaxKg (.fin r) = r ∧
      (r = 0 → ∀ v, getPelletsAutoResetValue s.pelletsAutoResetMode = some v →
        s.pelletsHoldAutoReset = true ∨ clampPelletsValue s.pelletsMaxKg (.fin v) = 0)

/-- A device state is settled on a flattened status document: every
stage of `applyStatus` finds the state it would produce. -/
structure Settled (flat : List (String × JSVal)) (s : DeviceState) : Prop where
  maxNonneg : 0 ≤ s.pelletsMaxKg
  eco : ∀ b, coerceBoolean (flatGet flat "meta.eco_editable") = some b → s.ecoEditable = b
  err : ErrSettled flat s
  meta : MetaSettled flat s
  clean : ∀ m, coerceNumber (flatGet flat "cleaning_in") = some m →
    CapSettled s "measure_stove_cleaning_in" (.num (.fin (roundTo (m / 60) 1)))
  maint : ∀ m, coerceNumber (flatGet flat "maintenance_in") = some m →
    CapSettled s "measure_stove_maintenance_in"
      (.num (.fin (roundTo (min 100 (max 0 (100 - m / 1000 * 100))) 1)))
  cons : ConsSettled flat s
  loop : ∀ k id, (k, id) ∈ STATE_TO_CAPABILITY →
    ¬(k = "cleaning_in" ∨ k = "maintenance_in") →
    ∀ v, coerceValue id (flatGet flat k) = some v → CapSettled s id v

theorem Settled_sp (flat : List (String × JSVal)) (s : DeviceState) (p : JSVal)
    (h : Settled flat s) : Settled flat { s with settingsPelletsKg := p } := by
  obtain ⟨h1, h2, h3, h4, h5, h6, h7, h8⟩ := h
  exact ⟨h1, h2, h3, h4, h5, h6, h7, h8⟩

/-- The eco-editability stage leaves a settled state untouched. -/
theorem eco_silent (flat : List (String × JSVal)) (s : DeviceState)
    (h : ∀ b, coerceBoolean (flatGet flat "meta.eco_editable") = some b → s.ecoEditable = b) :
    (match coerceBoolean (flatGet flat "meta.eco_editable") with
      | some b => { s with ecoEditable := b }
      | none => s) = s := by
  cases hcb : coerceBoolean (flatGet flat "meta.eco_editable") with
  | none => rfl
  | some b =>
    dsimp only
    rw [← h b hcb]

/-- When the stored remaining estimate already equals the clamped target,
`setPelletsRemaining` degenerates to the pellets-setting update. -/
theorem spr_fixpoint (s : DeviceState) (v : ℚ)
    (h : s.pelletsRemainingKg = some (clampPelletsValue s.pelletsMaxKg (.fin v))) :
    setPelletsRemaining s v true =
      updatePelletsSetting s (clampPelletsValue s.pelletsMaxKg (.fin v)) := by
  simp only [setPelletsRemaining, if_pos h]
  rfl

/-- A second run of the error state machine on a settled state changes at
most the `pellets_kg` setting and emits no user-visible event. -/
theorem aes_settled (flat : List (String × JSVal)) (s : DeviceState)
    (hM : 0 ≤ s.pelletsMaxKg) (h : ErrSettled flat s) :
    ∃ p, (applyErrorState s flat).1 = { s with settingsPelletsKg := p } ∧
      noisyEvents (applyErrorState s flat).2 = [] := by
  cases hg : getErrorNumber flat with
  | none =>
    refine ⟨s.settingsPelletsKg, ?_, ?_⟩ <;> simp [applyErrorState, hg, noisyEvents]
  | some n =>
    have hh := h n hg
    by_cases h0 : n = 0
    · rw [if_pos h0] at hh
      obtain ⟨hhold, hstate, hcode, hlast⟩ := hh
      have hs0 : ({ s with pelletsHoldAutoReset := false } : DeviceState) = s := by
        rw [← hhold]
      have h1 : setCapabilityValueIfChanged s "stove_error_state" (.bool false) = (s, []) :=
        scv_silent s _ _ hstate
      have h2 : setCapabilityValueIfChanged s "stove_error_code" (.str "") = (s, []) :=
        scv_silent s _ _ hcode
      have happ : applyErrorState s flat = (s, [] ++ []) := by
        simp only [applyErrorState, hg, if_pos h0, hs0, h1, h2]
        rw [if_neg (by simp [hlast])]
      refine ⟨s.settingsPelletsKg, ?_, ?_⟩ <;> rw [happ] <;> rfl
    · rw [if_neg h0] at hh
      obtain ⟨hcode, hstate, hlec, hlem, hrest⟩ := hh
      by_cases h21 : n = 21 ∨ n = 26
      · rw [if_pos h21] at hrest
        obtain ⟨hhold, hrem⟩ := hrest
        have hs0 : ({ s with pelletsHoldAutoReset := true } : DeviceState) = s := by
          rw [← hhold]
        have hclamp : clampPelletsValue s.pelletsMaxKg (.fin 0) = 0 := clamp_zero _ hM
        have hspr : setPelletsRemaining s 0 true = updatePelletsSetting s 0 := by
          have := spr_fixpoint s 0 (by rw [hclamp]; exact hrem)
          rwa [hclamp] at this
        have h1 : setCapabilityValueIfChanged (updatePelletsSetting s 0).1 "stove_error_code"
            (.str (formatErrorCode n)) = ((updatePelletsSetting s 0).1, []) :=
          scv_silent _ _ _ (by rw [ups_caps]; exact hcode)
        have h2 : setCapabilityValueIfChanged (updatePelletsSetting s 0).1 "stove_error_state"
            (.bool true) = ((updatePelletsSetting s 0).1, []) :=
          scv_silent _ _ _ (by rw [ups_caps]; exact hstate)
        have happ : applyErrorState s flat =
            ((updatePelletsSetting s 0).1, ((updatePelletsSetting s 0).2 ++ []) ++ []) := by
          simp only [applyErrorState, hg]
          rw [if_neg h0, if_pos h21, hs0, hspr, h1, h2]
          rw [if_neg (by simp [hlec]), if_neg (by simp [hlem, errMessageOf])]
        obtain ⟨p, hp⟩ := ups_shape s 0
        refine ⟨p, ?_, ?_⟩
        · rw [happ]
          exact hp
        · rw [happ]
          simpa [noisyEvents, List.filter_append] using ups_not_noisy s 0
      · rw [if_neg h21] at hrest
        have hs0 : ({ s with pelletsHoldAutoReset := false } : DeviceState) = s := by
          rw [← hrest]
        have h1 : setCapabilityValueIfChanged s "stove_error_code"
            (.str (formatErrorCode n)) = (s, []) := scv_silent _ _ _ hcode
        have h2 : setCapabilityValueIfChanged s "stove_error_state"
            (.bool true) = (s, []) := scv_silent _ _ _ hstate
        have happ : applyErrorState s flat = (s, ([] ++ []) ++ []) := by
          simp only [applyErrorState, hg]
          rw [if_neg h0, if_neg h21, hs0, h1, h2]
          rw [if_neg (by simp [hlec]), if_neg (by simp [hlem, errMessageOf])]
        refine ⟨s.settingsPelletsKg, ?_, ?_⟩ <;> rw [happ] <;> rfl

/-- A second metadata mirror pass on a settled state is the identity. -/
theorem ums_settled (flat : List (String × JSVal)) (s : DeviceState)
    (h : MetaSettled flat s) : updateMetaSettings s flat = (s, []) := by
  obtain ⟨h1, h2, h3⟩ := h
  have e1 : (match normalizeMetaValue (flatGet flat "meta.hw_version") with
      | some hw =>
        if hw ≠ jsValToString (nullishCoalesce s.settingsMetaHw (.str "")) then some hw else none
      | none => none) = (none : Option String) := by
    cases hv : normalizeMetaValue (flatGet flat "meta.hw_version") with
    | none => rfl
    | some x =>
      dsimp only
      simp [h1 x hv]
  have e2 : (match normalizeMetaValue (flatGet flat "meta.sw_version") with
      | some sw =>
        if sw ≠ jsValToString (nullishCoalesce s.settingsMetaSw (.str "")) then some sw else none
      | none => none) = (none : Option String) := by
    cases hv : normalizeMetaValue (flatGet flat "meta.sw_version") with
    | none => rfl
    | some x =>
      dsimp only
      simp [h2 x hv]
  have e3 : (match normalizeMetaValue (flatGet flat "meta.typ") with
      | some typ =>
        if typ ≠ jsValToString (nullishCoalesce s.settingsMetaTyp (.str "")) then some typ else none
      | none => none) = (none : Option String) := by
    cases hv : normalizeMetaValue (flatGet flat "meta.typ") with
    | none => rfl
    | some x =>
      dsimp only
      simp [h3 x hv]
  simp only [updateMetaSettings, e1, e2, e3]
  rfl

/-- A second consumption feed on a settled state changes at most the
`pellets_kg` setting and emits no user-visible event: the delta is zero,
the clamp is a fixpoint, and any armed auto-reset is either held or
clamps back to the empty hopper. -/
theorem upc_settled (s : DeviceState) (c r : ℚ)
    (hlast : s.lastConsumptionKg = some c)
    (hstore : s.storeConsumption = some c)
    (hrem : s.pelletsRemainingKg = some r)
    (hfix : clampPelletsValue s.pelletsMaxKg (.fin r) = r)
    (hsnap : r = 0 → ∀ v, getPelletsAutoResetValue s.pelletsAutoResetMode = some v →
      s.pelletsHoldAutoReset = true ∨ clampPelletsValue s.pelletsMaxKg (.fin v) = 0) :
    ∃ p, (updatePelletsFromConsumption s (.fin c)).1 = { s with settingsPelletsKg := p } ∧
      noisyEvents (updatePelletsFromConsumption s (.fin c)).2 = [] := by
  have hs1 : ({ s with lastConsumptionKg := some c, storeConsumption := some c } :
      DeviceState) = s := by
    nth_rewrite 1 [← hlast]
    nth_rewrite 1 [← hstore]
    rfl
  have hsprr : setPelletsRemaining s r true = updatePelletsSetting s r := by
    have h := spr_fixpoint s r (by rw [hfix]; exact hrem)
    rwa [hfix] at h
  have hdelta : (if c - c < 0 then (0 : ℚ) else c - c) = 0 := by simp
  simp only [updatePelletsFromConsumption]
  rw [if_neg (by simp [hrem])]
  dsimp only
  rw [hlast]
  dsimp only
  rw [hdelta, hs1]
  rw [hrem, Option.getD_some, sub_zero, hfix]
  by_cases hr0 : r = 0
  · rw [if_pos hr0]
    cases hv : getPelletsAutoResetValue s.pelletsAutoResetMode with
    | none =>
      dsimp only
      rw [hsprr]
      obtain ⟨p, hp⟩ := ups_shape s r
      refine ⟨p, by simp [hp, hrem, hlast, hstore], ?_⟩
      simpa [noisyEvents, Event.isNoisy] using ups_not_noisy s r
    | some v =>
      cases hhold : s.pelletsHoldAutoReset with
      | true =>
        dsimp only
        rw [hsprr]
        obtain ⟨p, hp⟩ := ups_shape s r
        refine ⟨p, by simp [hp, hrem, hlast, hstore, hhold], ?_⟩
        simpa [noisyEvents, Event.isNoisy] using ups_not_noisy s r
      | false =>
        dsimp only
        rcases hsnap hr0 v hv with hcontra | hclv
        · rw [hhold] at hcontra
          cases hcontra
        · have hsprv : setPelletsRemaining s v true = updatePelletsSetting s 0 := by
            have h := spr_fixpoint s v (by rw [hclv, ← hr0]; exact hrem)
            rwa [hclv] at h
          rw [hsprv]
          obtain ⟨p, hp⟩ := ups_shape s 0
          refine ⟨p, by simp [hp, hrem, hlast, hstore, hhold], ?_⟩
          simpa [noisyEvents, Event.isNoisy] using ups_not_noisy s 0
  · rw [if_neg hr0]
    rw [hsprr]
    obtain ⟨p, hp⟩ := ups_shape s r
    refine ⟨p, by simp [hp, hrem, hlast, hstore], ?_⟩
    simpa [noisyEvents, Event.isNoisy] using ups_not_noisy s r

/-- A second capability-diff pass on a settled state is the identity. -/
theorem loop_silent (flat : List (String × JSVal)) (s : DeviceState)
    (l : List (String × String))
    (h : ∀ k id, (k, id) ∈ l → ¬(k = "cleaning_in" ∨ k = "maintenance_in") →
      ∀ v, coerceValue id (flatGet flat k) = some v → CapSettled s id v) :
    applyStatusLoop s flat l = (s, []) := by
  induction l with
  | nil => rfl
  | cons e rest ih =>
    obtain ⟨k, id⟩ := e
    have hr1 : (if (flat.lookup k).isSome then
        if k = "cleaning_in" ∨ k = "maintenance_in" then (s, ([] : List Event))
        else
          match coerceValue id (flatGet flat k) with
          | some value => setCapabilityValueIfChanged s id value
          | none => (s, [])
      else (s, [])) = (s, []) := by
      by_cases hk : (flat.lookup k).isSome
      · rw [if_pos hk]
        by_cases hskip : k = "cleaning_in" ∨ k = "maintenance_in"
        · rw [if_pos hskip]
        · rw [if_neg hskip]
          cases hcv : coerceValue id (flatGet flat k) with
          | none => rfl
          | some v =>
            dsimp only
            exact scv_silent s id v (h k id (List.mem_cons_self _ _) hskip v hcv)
      · rw [if_neg hk]
    simp only [applyStatusLoop]
    rw [hr1]
    dsimp only
    rw [ih (fun k' id' hm => h k' id' (List.mem_cons_of_mem _ hm))]
    rfl

/-- A second cleaning-countdown publish on a settled state is silent. -/
theorem clean_stage_silent (flat : List (String × JSVal)) (t : DeviceState)
    (h : ∀ m, coerceNumber (flatGet flat "cleaning_in") = some m →
      CapSettled t "measure_stove_cleaning_in" (.num (.fin (roundTo (m / 60) 1)))) :
    (if (flat.lookup "cleaning_in").isSome then
      match coerceNumber (flatGet flat "cleaning_in") with
      | some minutes =>
        setCapabilityValueIfChanged t "measure_stove_cleaning_in"
          (.num (.fin (roundTo (minutes / 60) 1)))
      | none => (t, [])
    else (t, [])) = (t, []) := by
  by_cases hk : (flat.lookup "cleaning_in").isSome
  · rw [if_pos hk]
    cases hm : coerceNumber (flatGet flat "cleaning_in") with
    | none => rfl
    | some m =>
      dsimp only
      exact scv_silent t _ _ (h m hm)
  · rw [if_neg hk]

/-- A second maintenance-level publish on a settled state is silent. -/
theorem maint_stage_silent (flat : List (String × JSVal)) (t : DeviceState)
    (h : ∀ m, coerceNumber (flatGet flat "maintenance_in") = some m →
      CapSettled t "measure_stove_maintenance_in"
        (.num (.fin (roundTo (min 100 (max 0 (100 - m / 1000 * 100))) 1)))) :
    (if (flat.lookup "maintenance_in").isSome then
      match coerceNumber (flatGet flat "maintenance_in") with
      | some maintenanceKg =>
        setCapabilityValueIfChanged t "measure_stove_maintenance_in"
          (.num (.fin (roundTo (min 100 (max 0 (100 - maintenanceKg / 1000 * 100))) 1)))
      | none => (t, [])
    else (t, [])) = (t, []) := by
  by_cases hk : (flat.lookup "maintenance_in").isSome
  · rw [if_pos hk]
    cases hm : coerceNumber (flatGet flat "maintenance_in") with
    | none => rfl
    | some m =>
      dsimp only
      exact scv_silent t _ _ (h m hm)
  · rw [if_neg hk]

/-- On a settled state, a full second `applyStatus` pass emits no
user-visible event: no capability write, no flow trigger, no
notification, no warning. -/
theorem settled_silent (doc : List (String × SVal)) (s : DeviceState)
    (h : Settled (flattenStatus doc) s) :
    noisyEvents (applyStatus s doc).2 = [] := by
  obtain ⟨hM, heco, herr, hmeta, hclean, hmaint, hcons, hloop⟩ := h
  have h0 : Settled (flattenStatus doc) s :=
    ⟨hM, heco, herr, hmeta, hclean, hmaint, hcons, hloop⟩
  simp only [applyStatus]
  rw [eco_silent _ _ heco]
  obtain ⟨p1, h1s, h1e⟩ := aes_settled _ _ hM herr
  rw [h1s]
  have h1 : Settled (flattenStatus doc) { s with settingsPelletsKg := p1 } :=
    Settled_sp _ _ _ h0
  rw [ums_settled _ _ h1.meta]
  dsimp only
  rw [clean_stage_silent _ _ h1.clean]
  dsimp only
  rw [maint_stage_silent _ _ h1.maint]
  dsimp only
  cases hcn : coerceNumber (flatGet (flattenStatus doc) "consumption") with
  | none =>
    dsimp only
    rw [loop_silent _ _ _ h1.loop]
    simpa [noisyEvents, List.filter_append] using h1e
  | some c =>
    dsimp only
    obtain ⟨hlast, hstore, r, hrem, hfix, hsnap⟩ := h1.cons c hcn
    obtain ⟨p5, h5s, h5e⟩ := upc_settled _ c r hlast hstore hrem hfix hsnap
    rw [h5s]
    have h5 : Settled (flattenStatus doc)
        { ({ s with settingsPelletsKg := p1 } : DeviceState) with settingsPelletsKg := p5 } :=
      Settled_sp _ _ _ h1
    rw [loop_silent _ _ _ h5.loop]
    simp only [noisyEvents, List.filter_append, List.filter_nil, List.append_nil,
      List.nil_append]
    have h1e' : List.filter Event.isNoisy
        (applyErrorState s (flattenStatus doc)).2 = [] := by
      simpa [noisyEvents] using h1e
    have h5e' : List.filter Event.isNoisy
        (updatePelletsFromConsumption { s with settingsPelletsKg := p1 } (.fin c)).2 = [] := by
      simpa [noisyEvents] using h5e
    simp [h1e', h5e']

/-- `undefined` coerces to no capability value of any declared type. -/
theorem coerceValue_undef (id : String) : coerceValue id .undef = none := by
  cases h : CAPABILITY_TYPES id with
  | none => simp [coerceValue, h]
  | some t => cases t <;> simp [coerceValue, h, coerceBoolean, coerceNumber]

theorem flatGet_of_lookup_none (flat : List (String × JSVal)) (k : String)
    (h : flat.lookup k = none) : flatGet flat k = .undef := by
  simp [flatGet, h]

/-- The eco-editability stage only ever touches `ecoEditable`. -/
theorem eco_stage_shape (flat : List (String × JSVal)) (s : DeviceState) :
    ∃ e, (match coerceBoolean (flatGet flat "meta.eco_editable") with
      | some b => { s with ecoEditable := b }
      | none => s) = { s with ecoEditable := e } := by
  cases hcb : coerceBoolean (flatGet flat "meta.eco_editable") with
  | none => exact ⟨s.ecoEditable, rfl⟩
  | some b => exact ⟨b, rfl⟩

/-- When the document carries an eco-editability flag, the stage adopts it. -/
theorem eco_stage_val (flat : List (String × JSVal)) (s : DeviceState) (b : Bool)
    (h : coerceBoolean (flatGet flat "meta.eco_editable") = some b) :
    (match coerceBoolean (flatGet flat "meta.eco_editable") with
      | some b => { s with ecoEditable := b }
      | none => s).ecoEditable = b := by
  rw [h]

/-- The error state machine never touches the estimator inputs other
than the hold-flag, the remaining estimate and the published caps. -/
theorem aes_frame (s : DeviceState) (flat : List (String × JSVal)) :
    (applyErrorState s flat).1.ecoEditable = s.ecoEditable ∧
    (applyErrorState s flat).1.lastConsumptionKg = s.lastConsumptionKg ∧
    (applyErrorState s flat).1.storeConsumption = s.storeConsumption ∧
    (applyErrorState s flat).1.pelletsAutoResetMode = s.pelletsAutoResetMode ∧
    (applyErrorState s flat).1.pelletsMaxKg = s.pelletsMaxKg ∧
    (applyErrorState s flat).1.settingsMetaHw = s.settingsMetaHw ∧
    (applyErrorState s flat).1.settingsMetaSw = s.settingsMetaSw ∧
    (applyErrorState s flat).1.settingsMetaTyp = s.settingsMetaTyp := by
  simp only [applyErrorState]
  cases hg : getErrorNumber flat with
  | none => simp
  | some n =>
    dsimp only
    by_cases h0 : n = 0
    · rw [if_pos h0]
      split <;> simp
    · rw [if_neg h0]
      by_cases h21 : n = 21 ∨ n = 26
      · rw [if_pos h21]
        split <;> (try split) <;> simp
      · rw [if_neg h21]
        split <;> (try split) <;> simp

/-- The error state machine writes no capability other than the two
error caps and (on the hopper-empty faults) the two pellet caps. -/
theorem aes_caps_ne (s : DeviceState) (flat : List (String × JSVal)) (id : String)
    (h1 : id ≠ "stove_error_state") (h2 : id ≠ "stove_error_code")
    (h3 : id ≠ "measure_stove_pellets") (h4 : id ≠ "stove_pellets_actual") :
    (applyErrorState s flat).1.caps.lookup id = s.caps.lookup id := by
  simp only [applyErrorState]
  cases hg : getErrorNumber flat with
  | none => rfl
  | some n =>
    dsimp only
    by_cases h0 : n = 0
    · rw [if_pos h0]
      split <;>
        simp [scv_caps_ne _ _ _ _ h2, scv_caps_ne _ _ _ _ h1]
    · rw [if_neg h0]
      by_cases h21 : n = 21 ∨ n = 26
      · rw [if_pos h21]
        split <;> (try split) <;>
          simp [scv_caps_ne _ _ _ _ h2, scv_caps_ne _ _ _ _ h1, spr_caps_ne _ _ _ _ h3 h4]
      · rw [if_neg h21]
        split <;> (try split) <;>
          simp [scv_caps_ne _ _ _ _ h2, scv_caps_ne _ _ _ _ h1]

/-- The metadata mirror only ever touches the three meta settings. -/
theorem ums_shape (s : DeviceState) (flat : List (String × JSVal)) :
    ∃ a b c, (updateMetaSettings s flat).1 =
      { s with settingsMetaHw := a, settingsMetaSw := b, settingsMetaTyp := c } := by
  simp only [updateMetaSettings]
  split <;> split <;> split <;> exact ⟨_, _, _, rfl⟩

/-- Lazy estimator initialization leaves the error machine, the
eco-flag, the auto-reset mode, the hold-flag, the metadata and the
`pellets_kg` setting untouched. -/
theorem init_frame (s : DeviceState) :
    (initPelletsState s).1.ecoEditable = s.ecoEditable ∧
    (initPelletsState s).1.lastErrorCode = s.lastErrorCode ∧
    (initPelletsState s).1.lastErrorMessage = s.lastErrorMessage ∧
    (initPelletsState s).1.pelletsHoldAutoReset = s.pelletsHoldAutoReset ∧
    (initPelletsState s).1.pelletsAutoResetMode = s.pelletsAutoResetMode ∧
    (initPelletsState s).1.settingsMetaHw = s.settingsMetaHw ∧
    (initPelletsState s).1.settingsMetaSw = s.settingsMetaSw ∧
    (initPelletsState s).1.settingsMetaTyp = s.settingsMetaTyp ∧
    (initPelletsState s).1.settingsPelletsKg = s.settingsPelletsKg := by
  simp only [initPelletsState]
  split <;> (try split) <;> simp

/-- Lazy estimator initialization always produces a remaining estimate. -/
theorem init_rem_isSome (s : DeviceState) :
    ((initPelletsState s).1.pelletsRemainingKg).isSome := by
  simp only [initPelletsState]
  split <;> (try split) <;> simp

/-- Lazy estimator initialization re-parses the configured maximum. -/
theorem init_M (s : DeviceState) :
    (initPelletsState s).1.pelletsMaxKg = parsePelletsMaxKg s.settingsMaxKg := by
  simp only [initPelletsState]
  split <;> (try split) <;> simp

/-- Lazy estimator initialization writes only the two pellet caps. -/
theorem init_caps_ne (s : DeviceState) (id : String)
    (h3 : id ≠ "measure_stove_pellets") (h4 : id ≠ "stove_pellets_actual") :
    (initPelletsState s).1.caps.lookup id = s.caps.lookup id := by
  simp only [initPelletsState]
  split <;> (try split) <;> simp [scv_caps_ne _ _ _ _ h3, scv_caps_ne _ _ _ _ h4]

/-- The consumption feed leaves the error machine, the eco-flag, the
auto-reset mode, the hold-flag and the metadata untouched. -/
theorem upc_frame (s : DeviceState) (c : ℚ) :
    (updatePelletsFromConsumption s (.fin c)).1.ecoEditable = s.ecoEditable ∧
    (updatePelletsFromConsumption s (.fin c)).1.lastErrorCode = s.lastErrorCode ∧
    (updatePelletsFromConsumption s (.fin c)).1.lastErrorMessage = s.lastErrorMessage ∧
    (updatePelletsFromConsumption s (.fin c)).1.pelletsHoldAutoReset = s.pelletsHoldAutoReset ∧
    (updatePelletsFromConsumption s (.fin c)).1.pelletsAutoResetMode = s.pelletsAutoResetMode ∧
    (updatePelletsFromConsumption s (.fin c)).1.settingsMetaHw = s.settingsMetaHw ∧
    (updatePelletsFromConsumption s (.fin c)).1.settingsMetaSw = s.settingsMetaSw ∧
    (updatePelletsFromConsumption s (.fin c)).1.settingsMetaTyp = s.settingsMetaTyp := by
  obtain ⟨i1, i2, i3, i4, i5, i6, i7, i8, i9⟩ := init_frame s
  simp only [updatePelletsFromConsumption]
  split <;> split <;> (try split) <;>
    simp [i1, i2, i3, i4, i5, i6, i7, i8, i9]

/-- The consumption feed writes no capability other than the two pellet
caps. -/
theorem upc_caps_ne (s : DeviceState) (c : ℚ) (id : String)
    (h3 : id ≠ "measure_stove_pellets") (h4 : id ≠ "stove_pellets_actual") :
    (updatePelletsFromConsumption s (.fin c)).1.caps.lookup id = s.caps.lookup id := by
  simp only [updatePelletsFromConsumption]
  split <;> split <;> (try split) <;>
    simp [scv_caps_ne _ _ _ _ h3, scv_caps_ne _ _ _ _ h4,
      spr_caps_ne _ _ _ _ h3 h4, init_caps_ne _ _ h3 h4]

/-- The consumption feed keeps the configured maximum non-negative. -/
theorem upc_M_nonneg (s : DeviceState) (c : ℚ) (hM : 0 ≤ s.pelletsMaxKg) :
    0 ≤ (updatePelletsFromConsumption s (.fin c)).1.pelletsMaxKg := by
  simp only [updatePelletsFromConsumption]
  split <;> split <;> (try split) <;>
    simp [init_M, hM, parsePelletsMaxKg_nonneg]

/-- The consumption feed baselines the counter at the reported value. -/
theorem upc_last (s : DeviceState) (c : ℚ) :
    (updatePelletsFromConsumption s (.fin c)).1.lastConsumptionKg = some c ∧
    (updatePelletsFromConsumption s (.fin c)).1.storeConsumption = some c := by
  simp only [updatePelletsFromConsumption]
  split <;> split <;> (try split) <;> simp

/-- After a consumption feed the remaining estimate is always present. -/
theorem upc_rem_isSome (s : DeviceState) (c : ℚ) :
    ((updatePelletsFromConsumption s (.fin c)).1.pelletsRemainingKg).isSome := by
  simp only [updatePelletsFromConsumption]
  by_cases hnone : s.pelletsRemainingKg = none
  · rw [if_pos hnone]
    have hi := init_rem_isSome s
    cases hl : (initPelletsState s).1.lastConsumptionKg with
    | none =>
      dsimp only
      cases hr : (initPelletsState s).1.pelletsRemainingKg with
      | none =>
        rw [hr] at hi
        cases hi
      | some r => simp [hr]
    | some l =>
      dsimp only
      simp [spr_remaining]
  · rw [if_neg hnone]
    cases hl : s.lastConsumptionKg with
    | none =>
      dsimp only
      cases hr : s.pelletsRemainingKg with
      | none => exact absurd hr hnone
      | some r => simp [hr]
    | some l =>
      dsimp only
      simp [spr_remaining]

/-- The capability-diff loop only ever touches the capability store. -/
theorem loop_shape (flat : List (String × JSVal)) (s : DeviceState)
    (l : List (String × String)) :
    ∃ cp, (applyStatusLoop s flat l).1 = { s with caps := cp } := by
  induction l generalizing s with
  | nil => exact ⟨s.caps, rfl⟩
  | cons e rest ih =>
    obtain ⟨k, id⟩ := e
    simp only [applyStatusLoop]
    by_cases hk : (flat.lookup k).isSome
    · rw [if_pos hk]
      by_cases hskip : k = "cleaning_in" ∨ k = "maintenance_in"
      · rw [if_pos hskip]
        exact ih s
      · rw [if_neg hskip]
        cases hcv : coerceValue id (flatGet flat k) with
        | none => exact ih s
        | some v =>
          dsimp only
          obtain ⟨c1, hc1⟩ := scv_shape s id v
          obtain ⟨c2, hc2⟩ := ih (setCapabilityValueIfChanged s id v).1
          exact ⟨c2, by rw [hc2, hc1]⟩
    · rw [if_neg hk]
      exact ih s

/-- The capability-diff loop leaves alone every capability that no
non-skipped table entry maps to. -/
theorem loop_caps_pres (flat : List (String × JSVal)) (s : DeviceState)
    (l : List (String × String)) (id : String)
    (h : ∀ k2 id2, (k2, id2) ∈ l → ¬(k2 = "cleaning_in" ∨ k2 = "maintenance_in") →
      id2 ≠ id) :
    (applyStatusLoop s flat l).1.caps.lookup id = s.caps.lookup id := by
  induction l generalizing s with
  | nil => rfl
  | cons e rest ih =>
    obtain ⟨k2, id2⟩ := e
    simp only [applyStatusLoop]
    by_cases hk : (flat.lookup k2).isSome
    · rw [if_pos hk]
      by_cases hskip : k2 = "cleaning_in" ∨ k2 = "maintenance_in"
      · rw [if_pos hskip]
        exact ih s (fun k3 id3 hm => h k3 id3 (List.mem_cons_of_mem _ hm))
      · rw [if_neg hskip]
        cases hcv : coerceValue id2 (flatGet flat k2) with
        | none => exact ih s (fun k3 id3 hm => h k3 id3 (List.mem_cons_of_mem _ hm))
        | some v =>
          dsimp only
          rw [ih _ (fun k3 id3 hm => h k3 id3 (List.mem_cons_of_mem _ hm))]
          exact scv_caps_ne s id2 id v (h k2 id2 (List.mem_cons_self _ _) hskip).symm
    · rw [if_neg hk]
      exact ih s (fun k3 id3 hm => h k3 id3 (List.mem_cons_of_mem _ hm))

/-- While the hold-flag is set an empty hopper stays empty through any
consumption report: the delta only pushes the estimate further down and
the auto-reset rule is suppressed. -/
theorem upc_hold_zero (s : DeviceState) (c : ℚ)
    (hhold : s.pelletsHoldAutoReset = true)
    (hrem : s.pelletsRemainingKg = some 0)
    (hM : 0 ≤ s.pelletsMaxKg) :
    (updatePelletsFromConsumption s (.fin c)).1.pelletsRemainingKg = some 0 := by
  simp only [updatePelletsFromConsumption]
  rw [if_neg (by simp [hrem])]
  dsimp only
  cases hl : s.lastConsumptionKg with
  | none =>
    dsimp only
    rw [hrem]
    simp [hrem]
  | some l =>
    dsimp only
    rw [hrem]
    rw [Option.getD_some]
    have hd : 0 ≤ (if c - l < 0 then (0 : ℚ) else c - l) := by
      split
      · exact le_refl 0
      · next hcl => exact le_of_not_lt hcl
    have hnext : clampPelletsValue s.pelletsMaxKg
        (.fin (0 - (if c - l < 0 then (0 : ℚ) else c - l))) = 0 :=
      clamp_nonpos _ _ (by linarith) hM
    rw [hnext, if_pos rfl, hhold]
    cases hv : getPelletsAutoResetValue s.pelletsAutoResetMode with
    | none =>
      dsimp only
      simp [spr_remaining, clamp_zero _ hM]
    | some v =>
      dsimp only
      simp [spr_remaining, clamp_zero _ hM]

/-- One pass of the error state machine settles it on the document. -/
theorem aes_establishes (s : DeviceState) (flat : List (String × JSVal))
    (hM : 0 ≤ s.pelletsMaxKg) :
    ErrSettled flat (applyErrorState s flat).1 := by
  intro n hgn
  by_cases h0 : n = 0
  · simp only [applyErrorState, hgn, if_pos h0]
    have hstate := scv_settles ({ s with pelletsHoldAutoReset := false })
      "stove_error_state" (.bool false)
    split
    · refine ⟨by simp, ?_, ?_, by simp⟩
      · rw [CapSettled]
        dsimp only
        rw [scv_caps_ne _ _ _ _ (by decide)]
        exact hstate
      · exact scv_settles _ "stove_error_code" (.str "")
    · next hne =>
      refine ⟨by simp, ?_, ?_, by simpa using hne⟩
      · rw [CapSettled]
        rw [scv_caps_ne _ _ _ _ (by decide)]
        exact hstate
      · exact scv_settles _ "stove_error_code" (.str "")
  · simp only [applyErrorState, hgn, if_neg h0]
    by_cases h21 : n = 21 ∨ n = 26
    · simp only [if_pos h21]
      have hhold2 : (setCapabilityValueIfChanged
          ((setCapabilityValueIfChanged
            (setPelletsRemaining { s with pelletsHoldAutoReset := true } 0 true).1
            "stove_error_code" (.str (formatErrorCode n))).1)
          "stove_error_state" (.bool true)).1.pelletsHoldAutoReset = true := by
        simp
      have hrem2 : (setCapabilityValueIfChanged
          ((setCapabilityValueIfChanged
            (setPelletsRemaining { s with pelletsHoldAutoReset := true } 0 true).1
            "stove_error_code" (.str (formatErrorCode n))).1)
          "stove_error_state" (.bool true)).1.pelletsRemainingKg = some 0 := by
        simp [spr_remaining, clamp_zero _ hM]
      have hcode2 : CapSettled (setCapabilityValueIfChanged
          ((setCapabilityValueIfChanged
            (setPelletsRemaining { s with pelletsHoldAutoReset := true } 0 true).1
            "stove_error_code" (.str (formatErrorCode n))).1)
          "stove_error_state" (.bool true)).1 "stove_error_code"
          (.str (formatErrorCode n)) := by
        rw [CapSettled, scv_caps_ne _ _ _ _ (by decide)]
        exact scv_settles _ "stove_error_code" (.str (formatErrorCode n))
      have hstate2 := scv_settles ((setCapabilityValueIfChanged
          (setPelletsRemaining { s with pelletsHoldAutoReset := true } 0 true).1
          "stove_error_code" (.str (formatErrorCode n))).1)
          "stove_error_state" (.bool true)
      split
      · exact ⟨hcode2, hstate2, rfl, rfl, ⟨hhold2, hrem2⟩⟩
      · next hne =>
        split
        · refine ⟨hcode2, hstate2, by simpa using hne, rfl,
            ⟨hhold2, hrem2⟩⟩
        · next hne2 =>
          refine ⟨hcode2, hstate2, by simpa using hne, by simpa [errMessageOf] using hne2,
            ⟨hhold2, hrem2⟩⟩
    · simp only [if_neg h21]
      have hhold2 : (setCapabilityValueIfChanged
          ((setCapabilityValueIfChanged ({ s with pelletsHoldAutoReset := false })
            "stove_error_code" (.str (formatErrorCode n))).1)
          "stove_error_state" (.bool true)).1.pelletsHoldAutoReset = false := by
        simp
      have hcode2 : CapSettled (setCapabilityValueIfChanged
          ((setCapabilityValueIfChanged ({ s with pelletsHoldAutoReset := false })
            "stove_error_code" (.str (formatErrorCode n))).1)
          "stove_error_state" (.bool true)).1 "stove_error_code"
          (.str (formatErrorCode n)) := by
        rw [CapSettled, scv_caps_ne _ _ _ _ (by decide)]
        exact scv_settles _ "stove_error_code" (.str (formatErrorCode n))
      have hstate2 := scv_settles ((setCapabilityValueIfChanged
          ({ s with pelletsHoldAutoReset := false })
          "stove_error_code" (.str (formatErrorCode n))).1)
          "stove_error_state" (.bool true)
      split
      · exact ⟨hcode2, hstate2, rfl, rfl, hhold2⟩
      · next hne =>
        split
        · refine ⟨hcode2, hstate2, by simpa using hne, rfl,
            hhold2⟩
        · next hne2 =>
          refine ⟨hcode2, hstate2, by simpa using hne, by simpa [errMessageOf] using hne2,
            hhold2⟩

/-- One metadata mirror pass settles the hardware-version setting. -/
theorem ums_hw (s : DeviceState) (flat : List (String × JSVal)) :
    ∀ x, normalizeMetaValue (flatGet flat "meta.hw_version") = some x →
      jsValToString (nullishCoalesce (updateMetaSettings s flat).1.settingsMetaHw
        (.str "")) = x := by
  intro x hx
  simp only [updateMetaSettings, hx]
  by_cases hne : x ≠ jsValToString (nullishCoalesce s.settingsMetaHw (.str ""))
  · rw [if_pos hne]
    dsimp only
    repeat' split
    all_goals rfl
  · rw [if_neg hne]
    dsimp only
    repeat' split
    all_goals exact (not_not.mp hne).symm

/-- One metadata mirror pass settles the software-version setting. -/
theorem ums_sw (s : DeviceState) (flat : List (String × JSVal)) :
    ∀ x, normalizeMetaValue (flatGet flat "meta.sw_version") = some x →
      jsValToString (nullishCoalesce (updateMetaSettings s flat).1.settingsMetaSw
        (.str "")) = x := by
  intro x hx
  simp only [updateMetaSettings, hx]
  by_cases hne : x ≠ jsValToString (nullishCoalesce s.settingsMetaSw (.str ""))
  · rw [if_pos hne]
    dsimp only
    repeat' split
    all_goals rfl
  · rw [if_neg hne]
    dsimp only
    repeat' split
    all_goals exact (not_not.mp hne).symm

/-- One metadata mirror pass settles the device-type setting. -/
theorem ums_typ (s : DeviceState) (flat : List (String × JSVal)) :
    ∀ x, normalizeMetaValue (flatGet flat "meta.typ") = some x →
      jsValToString (nullishCoalesce (updateMetaSettings s flat).1.settingsMetaTyp
        (.str "")) = x := by
  intro x hx
  simp only [updateMetaSettings, hx]
  by_cases hne : x ≠ jsValToString (nullishCoalesce s.settingsMetaTyp (.str ""))
  · rw [if_pos hne]
    dsimp only
    repeat' split
    all_goals rfl
  · rw [if_neg hne]
    dsimp only
    repeat' split
    all_goals exact (not_not.mp hne).symm

/-- One metadata mirror pass settles all three mirrored settings. -/
theorem ums_establishes (s : DeviceState) (flat : List (String × JSVal)) :
    MetaSettled flat (updateMetaSettings s flat).1 :=
  ⟨ums_hw s flat, ums_sw s flat, ums_typ s flat⟩

/-- One capability-diff pass settles every mapped capability, provided
the mapped capability identifiers are pairwise distinct. -/
theorem loop_establishes (flat : List (String × JSVal)) (s : DeviceState)
    (l : List (String × String)) (hnd : (l.map Prod.snd).Nodup) :
    ∀ k id, (k, id) ∈ l → ¬(k = "cleaning_in" ∨ k = "maintenance_in") →
      ∀ v, coerceValue id (flatGet flat k) = some v →
        CapSettled (applyStatusLoop s flat l).1 id v := by
  induction l generalizing s with
  | nil =>
    intro k id hmem
    cases hmem
  | cons e rest ih =>
    obtain ⟨k2, id2⟩ := e
    intro k id hmem hns v hcv
    rcases List.mem_cons.mp hmem with heq | hmem'
    · rw [Prod.mk.injEq] at heq
      obtain ⟨rfl, rfl⟩ := heq
      have hk : (flat.lookup k).isSome := by
        cases hlk : flat.lookup k with
        | none =>
          rw [flatGet_of_lookup_none _ _ hlk, coerceValue_undef] at hcv
          cases hcv
        | some w => rfl
      simp only [applyStatusLoop]
      rw [if_pos hk, if_neg hns, hcv]
      dsimp only
      have hhead : id ∉ rest.map Prod.snd := by
        have := hnd
        simp only [List.map_cons, List.nodup_cons] at this
        exact this.1
      rw [CapSettled, loop_caps_pres flat _ rest id
        (fun k3 id3 hm _ => by
          intro hid
          exact hhead (hid ▸ List.mem_map_of_mem Prod.snd hm))]
      exact scv_settles s id v
    · have hndr : (rest.map Prod.snd).Nodup := by
        simp only [List.map_cons, List.nodup_cons] at hnd
        exact hnd.2
      simp only [applyStatusLoop]
      by_cases hk2 : (flat.lookup k2).isSome
      · rw [if_pos hk2]
        by_cases hskip : k2 = "cleaning_in" ∨ k2 = "maintenance_in"
        · rw [if_pos hskip]
          exact ih s hndr k id hmem' hns v hcv
        · rw [if_neg hskip]
          cases hcv2 : coerceValue id2 (flatGet flat k2) with
          | none => exact ih s hndr k id hmem' hns v hcv
          | some v2 =>
            dsimp only
            exact ih _ hndr k id hmem' hns v hcv
      · rw [if_neg hk2]
        exact ih s hndr k id hmem' hns v hcv

/-- Error-machine settledness only reads the hold-flag, the two error
caps, the tracked code and message, and the remaining estimate. -/
theorem ErrSettled_pres (flat : List (String × JSVal)) (t t' : DeviceState)
    (hhold : t'.pelletsHoldAutoReset = t.pelletsHoldAutoReset)
    (hcode : t'.caps.lookup "stove_error_code" = t.caps.lookup "stove_error_code")
    (hstate : t'.caps.lookup "stove_error_state" = t.caps.lookup "stove_error_state")
    (hlec : t'.lastErrorCode = t.lastErrorCode)
    (hlem : t'.lastErrorMessage = t.lastErrorMessage)
    (hrem : t'.pelletsRemainingKg = t.pelletsRemainingKg)
    (h : ErrSettled flat t) : ErrSettled flat t' := by
  intro n hgn
  have hh := h n hgn
  by_cases h0 : n = 0
  · rw [if_pos h0] at hh ⊢
    obtain ⟨a, b, c, d⟩ := hh
    refine ⟨by rw [hhold]; exact a, ?_, ?_, by rw [hlec]; exact d⟩
    · rw [CapSettled, hstate]
      exact b
    · rw [CapSettled, hcode]
      exact c
  · rw [if_neg h0] at hh ⊢
    obtain ⟨a, b, c, d, e⟩ := hh
    refine ⟨by rw [CapSettled, hcode]; exact a, by rw [CapSettled, hstate]; exact b,
      by rw [hlec]; exact c, by rw [hlem]; exact d, ?_⟩
    by_cases h21 : n = 21 ∨ n = 26
    · rw [if_pos h21] at e ⊢
      exact ⟨by rw [hhold]; exact e.1, by rw [hrem]; exact e.2⟩
    · rw [if_neg h21] at e ⊢
      rw [hhold]
      exact e

/-- The consumption feed preserves error-machine settledness: on the
hopper-empty faults the hold-flag keeps the estimate pinned at zero. -/
theorem ErrSettled_upc (flat : List (String × JSVal)) (t : DeviceState) (c : ℚ)
    (hM : 0 ≤ t.pelletsMaxKg)
    (h : ErrSettled flat t) :
    ErrSettled flat (updatePelletsFromConsumption t (.fin c)).1 := by
  obtain ⟨f1, f2, f3, f4, f5, f6, f7, f8⟩ := upc_frame t c
  intro n hgn
  have hh := h n hgn
  by_cases h0 : n = 0
  · rw [if_pos h0] at hh ⊢
    obtain ⟨a, b, c', d⟩ := hh
    refine ⟨by rw [f4]; exact a, ?_, ?_, by rw [f2]; exact d⟩
    · rw [CapSettled, upc_caps_ne _ _ "stove_error_state" (by decide) (by decide)]
      exact b
    · rw [CapSettled, upc_caps_ne _ _ "stove_error_code" (by decide) (by decide)]
      exact c'
  · rw [if_neg h0] at hh ⊢
    obtain ⟨a, b, c', d, e⟩ := hh
    refine ⟨?_, ?_, by rw [f2]; exact c', by rw [f3]; exact d, ?_⟩
    · rw [CapSettled, upc_caps_ne _ _ "stove_error_code" (by decide) (by decide)]
      exact a
    · rw [CapSettled, upc_caps_ne _ _ "stove_error_state" (by decide) (by decide)]
      exact b
    by_cases h21 : n = 21 ∨ n = 26
    · rw [if_pos h21] at e ⊢
      exact ⟨by rw [f4]; exact e.1, upc_hold_zero t c e.1 e.2 hM⟩
    · rw [if_neg h21] at e ⊢
      rw [f4]
      exact e

/-- The capability-diff loop preserves error-machine settledness: no
table entry maps to either error capability. -/
theorem ErrSettled_loop (flat : List (String × JSVal)) (t : DeviceState)
    (h : ErrSettled flat t) :
    ErrSettled flat (applyStatusLoop t flat STATE_TO_CAPABILITY).1 := by
  obtain ⟨cp, hcp⟩ := loop_shape flat t STATE_TO_CAPABILITY
  refine ErrSettled_pres flat t _ ?_ ?_ ?_ ?_ ?_ ?_ h
  · rw [hcp]
  · exact loop_caps_pres flat t _ "stove_error_code"
      (fun k2 id2 hm hns =>
        (by decide : ∀ e ∈ STATE_TO_CAPABILITY,
          ¬(e.1 = "cleaning_in" ∨ e.1 = "maintenance_in") → e.2 ≠ "stove_error_code")
          (k2, id2) hm hns)
  · exact loop_caps_pres flat t _ "stove_error_state"
      (fun k2 id2 hm hns =>
        (by decide : ∀ e ∈ STATE_TO_CAPABILITY,
          ¬(e.1 = "cleaning_in" ∨ e.1 = "maintenance_in") → e.2 ≠ "stove_error_state")
          (k2, id2) hm hns)
  · rw [hcp]
  · rw [hcp]
  · rw [hcp]

/-- A capability write away from the error caps preserves error-machine
settledness. -/
theorem ErrSettled_scv (flat : List (String × JSVal)) (t : DeviceState)
    (id : String) (v : JSVal)
    (h1 : id ≠ "stove_error_code") (h2 : id ≠ "stove_error_state")
    (h : ErrSettled flat t) :
    ErrSettled flat (setCapabilityValueIfChanged t id v).1 :=
  ErrSettled_pres flat t _ (scv_pelletsHoldAutoReset t id v)
    (scv_caps_ne t id "stove_error_code" v h1.symm)
    (scv_caps_ne t id "stove_error_state" v h2.symm)
    (scv_lastErrorCode t id v) (scv_lastErrorMessage t id v)
    (scv_pelletsRemainingKg t id v) h

/-- Metadata settledness only reads the three mirrored settings. -/
theorem MetaSettled_pres (flat : List (String × JSVal)) (t t' : DeviceState)
    (hw : t'.settingsMetaHw = t.settingsMetaHw)
    (sw : t'.settingsMetaSw = t.settingsMetaSw)
    (typ : t'.settingsMetaTyp = t.settingsMetaTyp)
    (h : MetaSettled flat t) : MetaSettled flat t' := by
  obtain ⟨x1, x2, x3⟩ := h
  refine ⟨?_, ?_, ?_⟩
  · intro x hx
    rw [hw]
    exact x1 x hx
  · intro x hx
    rw [sw]
    exact x2 x hx
  · intro x hx
    rw [typ]
    exact x3 x hx

/-- One full `applyStatus` pass settles the state on the document,
stage by stage, provided the resulting remaining estimate is a clamp
fixpoint and cannot be snapped away by the auto-reset rule. -/
theorem applyStatus_settles' (flat : List (String × JSVal))
    (s T0 T1 T2 T3 T4 T5 T6 : DeviceState)
    (h0 : T0 = (match coerceBoolean (flatGet flat "meta.eco_editable") with
      | some b => { s with ecoEditable := b }
      | none => s))
    (h1 : T1 = (applyErrorState T0 flat).1)
    (h2 : T2 = (updateMetaSettings T1 flat).1)
    (h3 : T3 = (if (flat.lookup "cleaning_in").isSome then
        match coerceNumber (flatGet flat "cleaning_in") with
        | some minutes =>
          setCapabilityValueIfChanged T2 "measure_stove_cleaning_in"
            (.num (.fin (roundTo (minutes / 60) 1)))
        | none => (T2, [])
      else (T2, [])).1)
    (h4 : T4 = (if (flat.lookup "maintenance_in").isSome then
        match coerceNumber (flatGet flat "maintenance_in") with
        | some maintenanceKg =>
          setCapabilityValueIfChanged T3 "measure_stove_maintenance_in"
            (.num (.fin (roundTo (min 100 (max 0 (100 - maintenanceKg / 1000 * 100))) 1)))
        | none => (T3, [])
      else (T3, [])).1)
    (h5 : T5 = (match coerceNumber (flatGet flat "consumption") with
        | some consumption => updatePelletsFromConsumption T4 (.fin consumption)
        | none => (T4, [])).1)
    (h6 : T6 = (applyStatusLoop T5 flat STATE_TO_CAPABILITY).1)
    (hM0 : 0 ≤ s.pelletsMaxKg)
    (hfix : ∀ r, T6.pelletsRemainingKg = some r →
      clampPelletsValue T6.pelletsMaxKg (.fin r) = r)
    (hsnap : T6.pelletsRemainingKg = some 0 →
      ∀ v, getPelletsAutoResetValue T6.pelletsAutoResetMode = some v →
        T6.pelletsHoldAutoReset = true ∨
        clampPelletsValue T6.pelletsMaxKg (.fin v) = 0) :
    Settled flat T6 := by
  obtain ⟨e0, he0⟩ := eco_stage_shape flat s
  have hT0 : T0 = { s with ecoEditable := e0 } := by rw [h0, he0]
  have hM0' : 0 ≤ T0.pelletsMaxKg := by rw [hT0]; exact hM0
  have heco0 : ∀ b, coerceBoolean (flatGet flat "meta.eco_editable") = some b →
      T0.ecoEditable = b := by
    intro b hb
    rw [h0]
    exact eco_stage_val flat s b hb
  obtain ⟨a1, a2, a3, a4, a5, a6, a7, a8⟩ := aes_frame T0 flat
  have herr1 : ErrSettled flat T1 := by rw [h1]; exact aes_establishes T0 flat hM0'
  have hM1 : 0 ≤ T1.pelletsMaxKg := by rw [h1, a5]; exact hM0'
  have heco1 : ∀ b, coerceBoolean (flatGet flat "meta.eco_editable") = some b →
      T1.ecoEditable = b := by
    intro b hb
    rw [h1, a1]
    exact heco0 b hb
  obtain ⟨m1, m2, m3, hums⟩ := ums_shape T1 flat
  have hT2 : T2 = { T1 with settingsMetaHw := m1, settingsMetaSw := m2, settingsMetaTyp := m3 } := by
    rw [h2, hums]
  have hmeta2 : MetaSettled flat T2 := by rw [h2]; exact ums_establishes T1 flat
  have herr2 : ErrSettled flat T2 := by rw [hT2]; exact herr1
  have hM2 : 0 ≤ T2.pelletsMaxKg := by rw [hT2]; exact hM1
  have heco2 : ∀ b, coerceBoolean (flatGet flat "meta.eco_editable") = some b →
      T2.ecoEditable = b := by
    intro b hb
    rw [hT2]
    exact heco1 b hb
  have hT3 : (∃ m, coerceNumber (flatGet flat "cleaning_in") = some m ∧
      T3 = (setCapabilityValueIfChanged T2 "measure_stove_cleaning_in"
        (.num (.fin (roundTo (m / 60) 1)))).1) ∨
      (coerceNumber (flatGet flat "cleaning_in") = none ∧ T3 = T2) := by
    rw [h3]
    by_cases hk : (flat.lookup "cleaning_in").isSome
    · rw [if_pos hk]
      cases hm : coerceNumber (flatGet flat "cleaning_in") with
      | none => exact Or.inr ⟨rfl, rfl⟩
      | some m => exact Or.inl ⟨m, rfl, rfl⟩
    · rw [if_neg hk]
      refine Or.inr ⟨?_, rfl⟩
      rw [flatGet_of_lookup_none _ _ (Option.not_isSome_iff_eq_none.mp hk)]
      rfl
  have hclean3 : ∀ m, coerceNumber (flatGet flat "cleaning_in") = some m →
      CapSettled T3 "measure_stove_cleaning_in" (.num (.fin (roundTo (m / 60) 1))) := by
    intro m hm
    rcases hT3 with ⟨m', hm', he⟩ | ⟨hn, he⟩
    · have h' := hm'.symm.trans hm
      injection h' with hmm
      subst hmm
      rw [he]
      exact scv_settles T2 _ _
    · rw [hm] at hn
      cases hn
  have herr3 : ErrSettled flat T3 := by
    rcases hT3 with ⟨m, hm, he⟩ | ⟨hn, he⟩
    · rw [he]
      exact ErrSettled_scv flat T2 _ _ (by decide) (by decide) herr2
    · rw [he]
      exact herr2
  have hmeta3 : MetaSettled flat T3 := by
    rcases hT3 with ⟨m, hm, he⟩ | ⟨hn, he⟩
    · rw [he]
      exact MetaSettled_pres flat T2 _ (by simp) (by simp) (by simp) hmeta2
    · rw [he]
      exact hmeta2
  have hM3 : 0 ≤ T3.pelletsMaxKg := by
    rcases hT3 with ⟨m, hm, he⟩ | ⟨hn, he⟩
    · rw [he, scv_pelletsMaxKg]
      exact hM2
    · rw [he]
      exact hM2
  have heco3 : ∀ b, coerceBoolean (flatGet flat "meta.eco_editable") = some b →
      T3.ecoEditable = b := by
    intro b hb
    rcases hT3 with ⟨m, hm, he⟩ | ⟨hn, he⟩
    · rw [he, scv_ecoEditable]
      exact heco2 b hb
    · rw [he]
      exact heco2 b hb
  have hT4 : (∃ m, coerceNumber (flatGet flat "maintenance_in") = some m ∧
      T4 = (setCapabilityValueIfChanged T3 "measure_stove_maintenance_in"
        (.num (.fin (roundTo (min 100 (max 0 (100 - m / 1000 * 100))) 1)))).1) ∨
      (coerceNumber (flatGet flat "maintenance_in") = none ∧ T4 = T3) := by
    rw [h4]
    by_cases hk : (flat.lookup "maintenance_in").isSome
    · rw [if_pos hk]
      cases hm : coerceNumber (flatGet flat "maintenance_in") with
      | none => exact Or.inr ⟨rfl, rfl⟩
      | some m => exact Or.inl ⟨m, rfl, rfl⟩
    · rw [if_neg hk]
      refine Or.inr ⟨?_, rfl⟩
      rw [flatGet_of_lookup_none _ _ (Option.not_isSome_iff_eq_none.mp hk)]
      rfl
  have hmaint4 : ∀ m, coerceNumber (flatGet flat "maintenance_in") = some m →
      CapSettled T4 "measure_stove_maintenance_in"
        (.num (.fin (roundTo (min 100 (max 0 (100 - m / 1000 * 100))) 1))) := by
    intro m hm
    rcases hT4 with ⟨m', hm', he⟩ | ⟨hn, he⟩
    · have h' := hm'.symm.trans hm
      injection h' with hmm
      subst hmm
      rw [he]
      exact scv_settles T3 _ _
    · rw [hm] at hn
      cases hn
  have hclean4 : ∀ m, coerceNumber (flatGet flat "cleaning_in") = some m →
      CapSettled T4 "measure_stove_cleaning_in" (.num (.fin (roundTo (m / 60) 1))) := by
    intro m hm
    rcases hT4 with ⟨m', hm', he⟩ | ⟨hn, he⟩
    · rw [he, CapSettled, scv_caps_ne _ _ _ _ (by decide)]
      exact hclean3 m hm
    · rw [he]
      exact hclean3 m hm
  have herr4 : ErrSettled flat T4 := by
    rcases hT4 with ⟨m, hm, he⟩ | ⟨hn, he⟩
    · rw [he]
      exact ErrSettled_scv flat T3 _ _ (by decide) (by decide) herr3
    · rw [he]
      exact herr3
  have hmeta4 : MetaSettled flat T4 := by
    rcases hT4 with ⟨m, hm, he⟩ | ⟨hn, he⟩
    · rw [he]
      exact MetaSettled_pres flat T3 _ (by simp) (by simp) (by simp) hmeta3
    · rw [he]
      exact hmeta3
  have hM4 : 0 ≤ T4.pelletsMaxKg := by
    rcases hT4 with ⟨m, hm, he⟩ | ⟨hn, he⟩
    · rw [he, scv_pelletsMaxKg]
      exact hM3
    · rw [he]
      exact hM3
  have heco4 : ∀ b, coerceBoolean (flatGet flat "meta.eco_editable") = some b →
      T4.ecoEditable = b := by
    intro b hb
    rcases hT4 with ⟨m, hm, he⟩ | ⟨hn, he⟩
    · rw [he, scv_ecoEditable]
      exact heco3 b hb
    · rw [he]
      exact heco3 b hb
  have hT5 : (∃ cq, coerceNumber (flatGet flat "consumption") = some cq ∧
      T5 = (updatePelletsFromConsumption T4 (.fin cq)).1) ∨
      (coerceNumber (flatGet flat "consumption") = none ∧ T5 = T4) := by
    rw [h5]
    cases hcn : coerceNumber (flatGet flat "consumption") with
    | none => exact Or.inr ⟨rfl, rfl⟩
    | some cq => exact Or.inl ⟨cq, rfl, rfl⟩
  have herr5 : ErrSettled flat T5 := by
    rcases hT5 with ⟨cq, hcq, he⟩ | ⟨hn, he⟩
    · rw [he]
      exact ErrSettled_upc flat T4 cq hM4 herr4
    · rw [he]
      exact herr4
  have hmeta5 : MetaSettled flat T5 := by
    rcases hT5 with ⟨cq, hcq, he⟩ | ⟨hn, he⟩
    · rw [he]
      obtain ⟨f1, f2, f3, f4, f5, f6, f7, f8⟩ := upc_frame T4 cq
      exact MetaSettled_pres flat T4 _ f6 f7 f8 hmeta4
    · rw [he]
      exact hmeta4
  have hM5 : 0 ≤ T5.pelletsMaxKg := by
    rcases hT5 with ⟨cq, hcq, he⟩ | ⟨hn, he⟩
    · rw [he]
      exact upc_M_nonneg T4 cq hM4
    · rw [he]
      exact hM4
  have heco5 : ∀ b, coerceBoolean (flatGet flat "meta.eco_editable") = some b →
      T5.ecoEditable = b := by
    intro b hb
    rcases hT5 with ⟨cq, hcq, he⟩ | ⟨hn, he⟩
    · rw [he]
      obtain ⟨f1, f2, f3, f4, f5, f6, f7, f8⟩ := upc_frame T4 cq
      rw [f1]
      exact heco4 b hb
    · rw [he]
      exact heco4 b hb
  have hclean5 : ∀ m, coerceNumber (flatGet flat "cleaning_in") = some m →
      CapSettled T5 "measure_stove_cleaning_in" (.num (.fin (roundTo (m / 60) 1))) := by
    intro m hm
    rcases hT5 with ⟨cq, hcq, he⟩ | ⟨hn, he⟩
    · rw [he, CapSettled,
        upc_caps_ne _ _ "measure_stove_cleaning_in" (by decide) (by decide)]
      exact hclean4 m hm
    · rw [he]
      exact hclean4 m hm
  have hmaint5 : ∀ m, coerceNumber (flatGet flat "maintenance_in") = some m →
      CapSettled T5 "measure_stove_maintenance_in"
        (.num (.fin (roundTo (min 100 (max 0 (100 - m / 1000 * 100))) 1))) := by
    intro m hm
    rcases hT5 with ⟨cq, hcq, he⟩ | ⟨hn, he⟩
    · rw [he, CapSettled,
        upc_caps_ne _ _ "measure_stove_maintenance_in" (by decide) (by decide)]
      exact hmaint4 m hm
    · rw [he]
      exact hmaint4 m hm
  obtain ⟨cp6, hlp⟩ := loop_shape flat T5 STATE_TO_CAPABILITY
  have hT6 : T6 = { T5 with caps := cp6 } := by rw [h6, hlp]
  refine ⟨?_, ?_, ?_, ?_, ?_, ?_, ?_, ?_⟩
  · rw [hT6]
    exact hM5
  · intro b hb
    rw [hT6]
    exact heco5 b hb
  · rw [h6]
    exact ErrSettled_loop flat T5 herr5
  · rw [hT6]
    exact hmeta5
  · intro m hm
    rw [h6, CapSettled, loop_caps_pres flat T5 _ "measure_stove_cleaning_in"
      (fun k2 id2 hmem hns =>
        (by decide : ∀ e ∈ STATE_TO_CAPABILITY,
          ¬(e.1 = "cleaning_in" ∨ e.1 = "maintenance_in") →
            e.2 ≠ "measure_stove_cleaning_in") (k2, id2) hmem hns)]
    exact hclean5 m hm
  · intro m hm
    rw [h6, CapSettled, loop_caps_pres flat T5 _ "measure_stove_maintenance_in"
      (fun k2 id2 hmem hns =>
        (by decide : ∀ e ∈ STATE_TO_CAPABILITY,
          ¬(e.1 = "cleaning_in" ∨ e.1 = "maintenance_in") →
            e.2 ≠ "measure_stove_maintenance_in") (k2, id2) hmem hns)]
    exact hmaint5 m hm
  · intro c hc
    rcases hT5 with ⟨cq, hcq, he⟩ | ⟨hn, he⟩
    · have h' := hcq.symm.trans hc
      injection h' with hceq
      subst hceq
      obtain ⟨hl5, hs5⟩ := upc_last T4 cq
      refine ⟨?_, ?_, ?_⟩
      · rw [hT6, he]
        exact hl5
      · rw [hT6, he]
        exact hs5
      · have hrs : (T5.pelletsRemainingKg).isSome := by
          rw [he]
          exact upc_rem_isSome T4 cq
        obtain ⟨r, hr⟩ := Option.isSome_iff_exists.mp hrs
        have hr6 : T6.pelletsRemainingKg = some r := by
          rw [hT6]
          exact hr
        refine ⟨r, hr6, hfix r hr6, ?_⟩
        intro hr0 v hv
        exact hsnap (hr0 ▸ hr6) v hv
    · rw [hc] at hn
      cases hn
  · rw [h6]
    exact loop_establishes flat T5 STATE_TO_CAPABILITY (by decide)

/-- One `applyStatus` pass settles the state on its document. -/
theorem applyStatus_settles (s : DeviceState) (doc : List (String × SVal))
    (hM0 : 0 ≤ s.pelletsMaxKg)
    (hfix : ∀ r, (applyStatus s doc).1.pelletsRemainingKg = some r →
      clampPelletsValue (applyStatus s doc).1.pelletsMaxKg (.fin r) = r)
    (hsnap : (applyStatus s doc).1.pelletsRemainingKg = some 0 →
      ∀ v, getPelletsAutoResetValue (applyStatus s doc).1.pelletsAutoResetMode = some v →
        (applyStatus s doc).1.pelletsHoldAutoReset = true ∨
        clampPelletsValue (applyStatus s doc).1.pelletsMaxKg (.fin v) = 0) :
    Settled (flattenStatus doc) (applyStatus s doc).1 :=
  applyStatus_settles' (flattenStatus doc) s _ _ _ _ _ _ (applyStatus s doc).1
    rfl rfl rfl rfl rfl rfl rfl hM0 hfix hsnap

/-- The status document used by the idempotence witness. -/
def c3WitnessDoc : List (String × SVal) := [("consumption", .num 100)]

/-- C3 (amended): delivering an identical status document twice in a row
emits no capability write, flow trigger, notification or warning on the
second delivery, provided the state after the first delivery is outside
the two re-clamping corners: the stored remaining estimate must be a
fixpoint of `clampPelletsValue` (automatic whenever `maxKg` is a whole
number), and an empty hopper with an armed auto-reset must either carry
the hold-flag or have a refill value that clamps back to zero — else
the second delivery snaps remaining to the refill value and republishes
the pellet capabilities (see the counterexample). -/
theorem second_application_emits_no_user_visible_effects
    (s : DeviceState) (doc : List (String × SVal))
    (hM0 : 0 ≤ s.pelletsMaxKg)
    (hfix : ((applyStatus s doc).1.pelletsRemainingKg.map
        (fun r => clampPelletsValue (applyStatus s doc).1.pelletsMaxKg (.fin r))) =
      (applyStatus s doc).1.pelletsRemainingKg)
    (hsnap : (applyStatus s doc).1.pelletsRemainingKg = some 0 →
      (applyStatus s doc).1.pelletsHoldAutoReset = true ∨
      ((getPelletsAutoResetValue (applyStatus s doc).1.pelletsAutoResetMode).map
        (fun v => clampPelletsValue (applyStatus s doc).1.pelletsMaxKg (.fin v))).getD 0
        = 0) :
    noisyEvents (applyStatus (applyStatus s doc).1 doc).2 = [] := by
  apply settled_silent
  apply applyStatus_settles s doc hM0
  · intro r hr
    rw [hr] at hfix
    simpa using hfix
  · intro h0 v hv
    rcases hsnap h0 with h | h
    · exact Or.inl h
    · right
      rw [hv] at h
      simpa using h

unseal Rat.add Rat.sub Rat.mul Rat.inv in
theorem second_application_emits_no_user_visible_effects_witness :
    ((0 : ℚ) ≤ exState.pelletsMaxKg ∧
     ((applyStatus exState c3WitnessDoc).1.pelletsRemainingKg.map
        (fun r => clampPelletsValue (applyStatus exState c3WitnessDoc).1.pelletsMaxKg
          (.fin r))) =
      (applyStatus exState c3WitnessDoc).1.pelletsRemainingKg ∧
     ((applyStatus exState c3WitnessDoc).1.pelletsRemainingKg = some 0 →
      (applyStatus exState c3WitnessDoc).1.pelletsHoldAutoReset = true ∨
      ((getPelletsAutoResetValue
          (applyStatus exState c3WitnessDoc).1.pelletsAutoResetMode).map
        (fun v => clampPelletsValue (applyStatus exState c3WitnessDoc).1.pelletsMaxKg
          (.fin v))).getD 0 = 0)) ∧
    noisyEvents (applyStatus (applyStatus exState c3WitnessDoc).1 c3WitnessDoc).2 = [] :=
  ⟨⟨by norm_num [exState],
    by
      have hflat : flattenStatus c3WitnessDoc =
          [("consumption", JSVal.num (JSNum.fin 100))] := by
        simp [flattenStatus, flattenEntries, objInsert, c3WitnessDoc]
      simp only [applyStatus, hflat]
      decide,
    by
      have hflat : flattenStatus c3WitnessDoc =
          [("consumption", JSVal.num (JSNum.fin 100))] := by
        simp [flattenStatus, flattenEntries, objInsert, c3WitnessDoc]
      simp only [applyStatus, hflat]
      decide⟩,
   second_application_emits_no_user_visible_effects exState c3WitnessDoc
     (by norm_num [exState])
     (by
       have hflat : flattenStatus c3WitnessDoc =
           [("consumption", JSVal.num (JSNum.fin 100))] := by
         simp [flattenStatus, flattenEntries, objInsert, c3WitnessDoc]
       simp only [applyStatus, hflat]
       decide)
     (by
       have hflat : flattenStatus c3WitnessDoc =
           [("consumption", JSVal.num (JSNum.fin 100))] := by
         simp [flattenStatus, flattenEntries, objInsert, c3WitnessDoc]
       simp only [applyStatus, hflat]
       decide)⟩

end HS
